import Mathlib

/-!
Verification of the clawcraft voxel world engine against its specification.

The development shallowly embeds the TypeScript sources:
* the coordinate model and chunk buffer operations (`packages/world/src/chunk.ts`),
* the permutation-based noise and terrain generators
  (`packages/world/src/noise.ts`, `packages/world/src/generator.ts`,
  `convex/lib/noise.ts`, `convex/lib/terrain.ts`),
* the world / chunk store (`packages/world/src/world.ts`),
* the discrete-mode HTTP action handlers (`convex/http.ts`),
* the continuous-mode game loop physics (`packages/server/src/game-server.ts`)
  and the client prediction physics (client `main.ts`).

Numbers: integer-valued JavaScript numbers are embedded as `Int`/`Nat`;
continuous quantities are embedded as exact rationals (`Q` below, a
numerator/denominator pair kept unnormalized so that the kernel can evaluate
the embedding).  JavaScript `%` (truncating remainder) is `Int.tmod`;
`Math.floor` on a quotient of integers is floor division.  Buffers
(`Uint8Array` / `number[]`) are `List Nat`.
-/

/-- Chunk side length, `CHUNK_SIZE = 16` in `shared/src/constants.ts`. -/
def CHUNK_SIZE : Nat := 16

/-- Blocks per chunk, `CHUNK_SIZE ** 3`. -/
def BLOCKS_PER_CHUNK : Nat := CHUNK_SIZE ^ 3

/-- Block identifiers from `BlockTypes` (shared constants and `convex/lib/terrain.ts`). -/
def AIR : Nat := 0
def STONE : Nat := 1
def DIRT : Nat := 2
def GRASS : Nat := 3
def WOOD : Nat := 4
def LEAVES : Nat := 5
def WATER : Nat := 6
def SAND : Nat := 7
def BEDROCK : Nat := 8
def FLOWER_RED : Nat := 9
def FLOWER_YELLOW : Nat := 10
def TALL_GRASS : Nat := 11

/-- JavaScript `%` on integers: remainder truncating toward zero. -/
def jsMod (a b : Int) : Int := Int.tmod a b

/-- JavaScript `Math.floor(a / b)` for an integer `a` and positive integer `b`:
floor division. -/
def floorDiv (a b : Int) : Int := Int.fdiv a b

/-- Integer triple used for chunk coordinates (`ChunkCoord`). -/
structure ChunkCoord where
  cx : Int
  cy : Int
  cz : Int
deriving DecidableEq, Repr

/-- Integer triple used for local block coordinates. -/
structure Vec3i where
  x : Int
  y : Int
  z : Int
deriving DecidableEq, Repr

/-- Embeds `coordToIndex` from `chunk.ts`: local coordinates to flat buffer index. -/
def coordToIndex (x y z : Int) : Int := x + y * 16 + z * 16 * 16

/-- Embeds `worldToChunk` from `chunk.ts`: `Math.floor(v / CHUNK_SIZE)` per axis. -/
def worldToChunk (x y z : Int) : ChunkCoord :=
  { cx := floorDiv x 16, cy := floorDiv y 16, cz := floorDiv z 16 }

/-- One axis of `worldToLocal`: `((v % CHUNK_SIZE) + CHUNK_SIZE) % CHUNK_SIZE`
with JavaScript truncating `%`. -/
def localAxis (v : Int) : Int := jsMod (jsMod v 16 + 16) 16

/-- Embeds `worldToLocal` from `chunk.ts`. -/
def worldToLocal (x y z : Int) : Vec3i :=
  { x := localAxis x, y := localAxis y, z := localAxis z }

/-- Chunk record from `shared/src/types.ts`: coordinate, flat block buffer
(`Uint8Array(4096)` as `List Nat`), dirty marker. -/
structure Chunk where
  coord : ChunkCoord
  blocks : List Nat
  dirty : Bool
deriving DecidableEq, Repr

/-- Embeds `createChunk` from `chunk.ts`: all-air buffer, not dirty. -/
def createChunk (coord : ChunkCoord) : Chunk :=
  { coord := coord, blocks := List.replicate BLOCKS_PER_CHUNK AIR, dirty := false }

/-- Embeds `getBlock` from `chunk.ts`: air outside the local range, otherwise the
buffer entry at `coordToIndex`. -/
def getBlock (c : Chunk) (x y z : Int) : Nat :=
  if x < 0 ∨ 16 ≤ x ∨ y < 0 ∨ 16 ≤ y ∨ z < 0 ∨ 16 ≤ z then AIR
  else c.blocks.getD (coordToIndex x y z).toNat 0

/-- Embeds `setBlock` from `chunk.ts`: no-op outside the local range, otherwise
writes the buffer entry and marks the chunk dirty. -/
def setBlock (c : Chunk) (x y z : Int) (blockId : Nat) : Chunk :=
  if x < 0 ∨ 16 ≤ x ∨ y < 0 ∨ 16 ≤ y ∨ z < 0 ∨ 16 ≤ z then c
  else { c with blocks := c.blocks.set (coordToIndex x y z).toNat blockId, dirty := true }

/-! Arithmetic facts about the coordinate model. -/

lemma tmod_sixteen_lower (v : Int) : -16 < Int.tmod v 16 := by
  cases v with
  | ofNat n =>
    have : 0 ≤ Int.tmod (Int.ofNat n) 16 := Int.tmod_nonneg _ (Int.ofNat_nonneg n)
    omega
  | negSucc n =>
    have h1 : Int.tmod (Int.negSucc n) 16 = -(((n : Int) + 1) % 16) := rfl
    have h2 : (0 : Int) ≤ ((n : Int) + 1) % 16 := Int.emod_nonneg _ (by norm_num)
    have h3 : ((n : Int) + 1) % 16 < 16 := Int.emod_lt_of_pos _ (by norm_num)
    omega

lemma tmod_sixteen_emod (v : Int) : Int.tmod v 16 % 16 = v % 16 := by
  conv_rhs => rw [← Int.tmod_add_tdiv v 16]
  rw [Int.add_mul_emod_self_left]

lemma localAxis_eq_emod (v : Int) : localAxis v = v % 16 := by
  unfold localAxis jsMod
  have hlo := tmod_sixteen_lower v
  have h2 : (0 : Int) ≤ Int.tmod v 16 + 16 := by omega
  rw [Int.tmod_eq_emod h2 (by norm_num)]
  have h3 : (Int.tmod v 16 + 16) % 16 = Int.tmod v 16 % 16 := by omega
  rw [h3, tmod_sixteen_emod]

lemma localAxis_bounds (v : Int) : 0 ≤ localAxis v ∧ localAxis v < 16 := by
  rw [localAxis_eq_emod]
  exact ⟨Int.emod_nonneg v (by norm_num), Int.emod_lt_of_pos v (by norm_num)⟩

lemma floorDiv_mul_add_localAxis (v : Int) : floorDiv v 16 * 16 + localAxis v = v := by
  rw [localAxis_eq_emod]
  unfold floorDiv
  rw [Int.fdiv_eq_ediv _ (by norm_num)]
  omega

/-- C2: for every integer world coordinate triple, `worldToChunk` (floor division
by 16) and `worldToLocal` (`((v % 16) + 16) % 16` per axis) recombine to address
the same block as direct computation: each local component lies in `[0,16)`,
chunk component times 16 plus local component equals the original coordinate on
every axis, and the flat index `lx + ly*16 + lz*256` is the index `getBlock`
reads. -/
theorem c2_coordinate_roundtrip (x y z : Int) :
    (0 ≤ (worldToLocal x y z).x ∧ (worldToLocal x y z).x < 16) ∧
    (0 ≤ (worldToLocal x y z).y ∧ (worldToLocal x y z).y < 16) ∧
    (0 ≤ (worldToLocal x y z).z ∧ (worldToLocal x y z).z < 16) ∧
    (worldToChunk x y z).cx * 16 + (worldToLocal x y z).x = x ∧
    (worldToChunk x y z).cy * 16 + (worldToLocal x y z).y = y ∧
    (worldToChunk x y z).cz * 16 + (worldToLocal x y z).z = z ∧
    ∀ ch : Chunk,
      getBlock ch (worldToLocal x y z).x (worldToLocal x y z).y (worldToLocal x y z).z =
        ch.blocks.getD
          (coordToIndex (worldToLocal x y z).x (worldToLocal x y z).y
            (worldToLocal x y z).z).toNat 0 := by
  refine ⟨localAxis_bounds x, localAxis_bounds y, localAxis_bounds z,
    floorDiv_mul_add_localAxis x, floorDiv_mul_add_localAxis y,
    floorDiv_mul_add_localAxis z, ?_⟩
  intro ch
  have hx := localAxis_bounds x
  have hy := localAxis_bounds y
  have hz := localAxis_bounds z
  unfold getBlock
  rw [if_neg]
  simp only [worldToLocal] at *
  omega

/-! World / chunk store, embedding `packages/world/src/world.ts`.  The class
holds a chunk cache (a `Map` keyed by `chunkKey`, modelled as an association
list keyed by the `ChunkCoord` itself, since `chunkKey` is injective) and a
terrain generator, modelled as a function field `gen`.  JavaScript mutates the
cached chunk objects in place; the embedding passes the updated store
explicitly. -/

structure World where
  chunks : List (ChunkCoord × Chunk)
  gen : ChunkCoord → Chunk

/-- Embeds `World.getChunk`: return the cached chunk, or generate, cache and
return it. -/
def World.getChunk (w : World) (c : ChunkCoord) : Chunk × World :=
  match w.chunks.lookup c with
  | some ch => (ch, w)
  | none =>
    let ch := w.gen c
    (ch, { w with chunks := w.chunks ++ [(c, ch)] })

/-- Embeds `World.getBlockAt`: resolve the chunk, read the local block. -/
def World.getBlockAt (w : World) (x y z : Int) : Nat × World :=
  let cc := worldToChunk x y z
  let r := w.getChunk cc
  let l := worldToLocal x y z
  (getBlock r.1 l.x l.y l.z, r.2)

/-- Replaces the cache entry at `c` (JavaScript mutates the chunk object held
in the `Map` in place). -/
def World.updateChunk (w : World) (c : ChunkCoord) (ch : Chunk) : World :=
  { w with chunks := w.chunks.map (fun p => if p.1 = c then (c, ch) else p) }

/-- The unconditional write path of `World.setBlockAt` (resolve chunk, write
local block via `setBlock`). -/
def World.writeBlock (w : World) (x y z : Int) (blockId : Nat) : World :=
  let cc := worldToChunk x y z
  let r := w.getChunk cc
  let l := worldToLocal x y z
  r.2.updateChunk cc (setBlock r.1 l.x l.y l.z blockId)

/-- Embeds `World.setBlockAt`: returns `false` without writing when the new id
is air and the current block is bedrock (`blockId === BlockTypes.AIR &&
this.getBlockAt(...) === BlockTypes.BEDROCK`, with JavaScript short-circuit
evaluation), otherwise writes and returns `true`. -/
def World.setBlockAt (w : World) (x y z : Int) (blockId : Nat) : Bool × World :=
  if blockId = AIR then
    let r := w.getBlockAt x y z
    if r.1 = BEDROCK then (false, r.2)
    else (true, r.2.writeBlock x y z blockId)
  else (true, w.writeBlock x y z blockId)

/-- Embeds `World.getDirtyChunks`: loaded chunks whose dirty flag is set. -/
def World.getDirtyChunks (w : World) : List Chunk :=
  (w.chunks.map Prod.snd).filter (fun c => c.dirty)

/-- Embeds `World.markAllClean`: clear every cached chunk's dirty flag. -/
def World.markAllClean (w : World) : World :=
  { w with chunks := w.chunks.map (fun p => (p.1, { p.2 with dirty := false })) }

/-! Association-list facts used for the chunk caches. -/

lemma lookup_append_some {β : Type} {l₁ : List (ChunkCoord × β)} (l₂ : List (ChunkCoord × β))
    {k : ChunkCoord} {v : β} (h : l₁.lookup k = some v) :
    (l₁ ++ l₂).lookup k = some v := by
  induction l₁ with
  | nil => simp [List.lookup] at h
  | cons p t ih =>
    rw [List.cons_append]
    obtain ⟨a, b⟩ := p
    rw [List.lookup_cons] at h ⊢
    rcases hk : (k == a) with _ | _ <;> simp [hk] at h ⊢
    · exact ih h
    · exact h

lemma lookup_append_none {β : Type} {l₁ : List (ChunkCoord × β)} (l₂ : List (ChunkCoord × β))
    {k : ChunkCoord} (h : l₁.lookup k = none) :
    (l₁ ++ l₂).lookup k = l₂.lookup k := by
  induction l₁ with
  | nil => simp
  | cons p t ih =>
    rw [List.cons_append]
    obtain ⟨a, b⟩ := p
    rw [List.lookup_cons] at h ⊢
    rcases hk : (k == a) with _ | _
    · simp only [hk] at h ⊢
      exact ih h
    · simp only [hk] at h
      exact absurd h (by simp)

lemma lookup_singleton {β : Type} (k c : ChunkCoord) (ch : β) :
    ([(c, ch)] : List (ChunkCoord × β)).lookup k =
      if k = c then some ch else none := by
  rw [List.lookup_cons]
  rcases hk : (k == c) with _ | _
  · simp only [beq_eq_false_iff_ne] at hk
    simp [hk]
  · simp only [beq_iff_eq] at hk
    simp [hk]

lemma lookup_map_replace {β : Type} (l : List (ChunkCoord × β)) (c : ChunkCoord) (ch : β) :
    (l.map (fun p => if p.1 = c then (c, ch) else p)).lookup c =
      (l.lookup c).map (fun _ => ch) := by
  induction l with
  | nil => simp
  | cons p t ih =>
    obtain ⟨a, b⟩ := p
    by_cases ha : a = c
    · subst ha
      simp only [List.map_cons, if_pos rfl]
      rw [List.lookup_cons, List.lookup_cons]
      simp
    · simp only [List.map_cons, if_neg ha]
      rw [List.lookup_cons, List.lookup_cons]
      rcases hk : (c == a) with _ | _
      · simp [ih]
      · simp only [beq_iff_eq] at hk
        exact absurd hk.symm ha

lemma lookup_map_replace_ne {β : Type} (l : List (ChunkCoord × β)) {c k : ChunkCoord} (ch : β)
    (h : k ≠ c) :
    (l.map (fun p => if p.1 = c then (c, ch) else p)).lookup k = l.lookup k := by
  induction l with
  | nil => simp
  | cons p t ih =>
    obtain ⟨a, b⟩ := p
    by_cases ha : a = c
    · subst ha
      simp only [List.map_cons, if_pos rfl]
      rw [List.lookup_cons, List.lookup_cons]
      rcases hk : (k == a) with _ | _
      · simp [hk, ih]
      · simp only [beq_iff_eq] at hk
        exact absurd hk h
    · simp only [List.map_cons, if_neg ha]
      rw [List.lookup_cons, List.lookup_cons]
      rcases hk : (k == a) with _ | _ <;> simp [hk, ih]

lemma lookup_mem {β : Type} {l : List (ChunkCoord × β)} {k : ChunkCoord} {v : β}
    (h : l.lookup k = some v) : (k, v) ∈ l := by
  induction l with
  | nil => simp [List.lookup] at h
  | cons p t ih =>
    obtain ⟨a, b⟩ := p
    rw [List.lookup_cons] at h
    rcases hk : (k == a) with _ | _ <;> simp [hk] at h
    · exact List.mem_cons_of_mem _ (ih h)
    · simp only [beq_iff_eq] at hk
      subst hk
      subst h
      exact List.mem_cons_self _ _

/-- Observed chunk at a coordinate: the cached chunk if present, otherwise what
the generator would produce.  `World.getChunk` returns exactly this value. -/
def World.chunkVal (w : World) (c : ChunkCoord) : Chunk :=
  (w.chunks.lookup c).getD (w.gen c)

/-- Observed block value at world coordinates; `World.getBlockAt` returns
exactly this value. -/
def World.blockVal (w : World) (x y z : Int) : Nat :=
  getBlock (w.chunkVal (worldToChunk x y z)) (worldToLocal x y z).x
    (worldToLocal x y z).y (worldToLocal x y z).z

lemma getChunk_fst (w : World) (c : ChunkCoord) : (w.getChunk c).1 = w.chunkVal c := by
  unfold World.getChunk World.chunkVal
  cases h : w.chunks.lookup c <;> simp [h]

lemma getChunk_snd_chunkVal (w : World) (c k : ChunkCoord) :
    ((w.getChunk c).2).chunkVal k = w.chunkVal k := by
  unfold World.getChunk
  cases h : w.chunks.lookup c with
  | some ch => simp
  | none =>
    simp only
    unfold World.chunkVal
    by_cases hk : k = c
    · subst hk
      rw [lookup_append_none _ h, lookup_singleton, if_pos rfl]
      simp [h]
    · rcases h2 : w.chunks.lookup k with _ | v
      · rw [lookup_append_none _ h2, lookup_singleton, if_neg hk]
      · rw [lookup_append_some _ h2]

lemma getChunk_snd_gen (w : World) (c : ChunkCoord) : ((w.getChunk c).2).gen = w.gen := by
  unfold World.getChunk
  cases h : w.chunks.lookup c <;> simp

lemma getChunk_snd_lookup_self (w : World) (c : ChunkCoord) :
    ((w.getChunk c).2).chunks.lookup c = some (w.chunkVal c) := by
  unfold World.getChunk World.chunkVal
  cases h : w.chunks.lookup c with
  | some ch => simp [h]
  | none =>
    simp only
    rw [lookup_append_none _ h, lookup_singleton, if_pos rfl]
    simp [h]

lemma getBlockAt_fst (w : World) (x y z : Int) :
    (w.getBlockAt x y z).1 = w.blockVal x y z := by
  unfold World.getBlockAt World.blockVal
  simp only [getChunk_fst]

lemma getBlockAt_snd_chunkVal (w : World) (x y z : Int) (k : ChunkCoord) :
    ((w.getBlockAt x y z).2).chunkVal k = w.chunkVal k := by
  unfold World.getBlockAt
  exact getChunk_snd_chunkVal w _ k

lemma getBlockAt_snd_blockVal (w : World) (x y z a b c : Int) :
    ((w.getBlockAt x y z).2).blockVal a b c = w.blockVal a b c := by
  unfold World.blockVal
  rw [getBlockAt_snd_chunkVal]

lemma getBlockAt_snd_gen (w : World) (x y z : Int) :
    ((w.getBlockAt x y z).2).gen = w.gen := by
  unfold World.getBlockAt
  exact getChunk_snd_gen w _

lemma updateChunk_chunkVal_self (w : World) (c : ChunkCoord) (ch : Chunk)
    (h : w.chunks.lookup c ≠ none) : (w.updateChunk c ch).chunkVal c = ch := by
  unfold World.updateChunk World.chunkVal
  simp only
  rw [lookup_map_replace]
  rcases h2 : w.chunks.lookup c with _ | v
  · exact absurd h2 h
  · simp

lemma updateChunk_chunkVal_ne (w : World) {c k : ChunkCoord} (ch : Chunk) (h : k ≠ c) :
    (w.updateChunk c ch).chunkVal k = w.chunkVal k := by
  unfold World.updateChunk World.chunkVal
  simp only
  rw [lookup_map_replace_ne _ _ h]

lemma writeBlock_chunkVal_self (w : World) (x y z : Int) (blockId : Nat) :
    (w.writeBlock x y z blockId).chunkVal (worldToChunk x y z) =
      setBlock (w.chunkVal (worldToChunk x y z)) (worldToLocal x y z).x
        (worldToLocal x y z).y (worldToLocal x y z).z blockId := by
  unfold World.writeBlock
  simp only [getChunk_fst]
  apply updateChunk_chunkVal_self
  rw [getChunk_snd_lookup_self]
  simp

lemma writeBlock_chunkVal_ne (w : World) (x y z : Int) (blockId : Nat) {k : ChunkCoord}
    (h : k ≠ worldToChunk x y z) :
    (w.writeBlock x y z blockId).chunkVal k = w.chunkVal k := by
  unfold World.writeBlock
  simp only
  rw [updateChunk_chunkVal_ne _ _ h, getChunk_snd_chunkVal]

/-- Buffer well-formedness: every cached chunk and every generated chunk has a
4096-entry block buffer (true of `createChunk`, of the terrain generator, and
preserved by `setBlock`). -/
def World.WF (w : World) : Prop :=
  (∀ p ∈ w.chunks, p.2.blocks.length = BLOCKS_PER_CHUNK) ∧
  (∀ c, (w.gen c).blocks.length = BLOCKS_PER_CHUNK)

lemma chunkVal_length {w : World} (hwf : w.WF) (c : ChunkCoord) :
    (w.chunkVal c).blocks.length = BLOCKS_PER_CHUNK := by
  unfold World.chunkVal
  rcases h : w.chunks.lookup c with _ | v
  · exact hwf.2 c
  · exact hwf.1 _ (lookup_mem h)

lemma coordToIndex_toNat_lt {x y z : Int} (hx : 0 ≤ x ∧ x < 16) (hy : 0 ≤ y ∧ y < 16)
    (hz : 0 ≤ z ∧ z < 16) : (coordToIndex x y z).toNat < BLOCKS_PER_CHUNK := by
  unfold coordToIndex BLOCKS_PER_CHUNK CHUNK_SIZE
  omega

lemma getBlock_setBlock_self (c : Chunk) {lx ly lz : Int} (id : Nat)
    (hx : 0 ≤ lx ∧ lx < 16) (hy : 0 ≤ ly ∧ ly < 16) (hz : 0 ≤ lz ∧ lz < 16)
    (hlen : c.blocks.length = BLOCKS_PER_CHUNK) :
    getBlock (setBlock c lx ly lz id) lx ly lz = id := by
  unfold getBlock setBlock
  rw [if_neg (by omega), if_neg (by omega)]
  simp only
  have hidx : (coordToIndex lx ly lz).toNat < c.blocks.length := by
    rw [hlen]; exact coordToIndex_toNat_lt hx hy hz
  simp [List.getD, List.getElem?_set_self hidx]

lemma setBlockAt_fst_false_iff (w : World) (x y z : Int) (id : Nat) :
    (w.setBlockAt x y z id).1 = false ↔ (id = AIR ∧ w.blockVal x y z = BEDROCK) := by
  unfold World.setBlockAt
  by_cases hid : id = AIR
  · simp only [if_pos hid, getBlockAt_fst]
    by_cases hb : w.blockVal x y z = BEDROCK
    · simp [hb, hid]
    · simp [hb, hid]
  · simp [hid]

lemma setBlockAt_fail_preserves (w : World) (x y z : Int) (id : Nat)
    (hid : id = AIR) (hb : w.blockVal x y z = BEDROCK) :
    ∀ a b c : Int, ((w.setBlockAt x y z id).2).blockVal a b c = w.blockVal a b c := by
  intro a b c
  unfold World.setBlockAt
  simp only [if_pos hid, getBlockAt_fst, if_pos hb]
  exact getBlockAt_snd_blockVal w x y z a b c

lemma writeBlock_blockVal_self (w : World) (x y z : Int) (id : Nat) (hwf : w.WF) :
    (w.writeBlock x y z id).blockVal x y z = id := by
  unfold World.blockVal
  rw [writeBlock_chunkVal_self]
  exact getBlock_setBlock_self _ id (localAxis_bounds x) (localAxis_bounds y)
    (localAxis_bounds z) (chunkVal_length hwf _)

lemma getBlockAt_snd_WF (w : World) (x y z : Int) (hwf : w.WF) :
    ((w.getBlockAt x y z).2).WF := by
  unfold World.getBlockAt World.getChunk
  simp only
  cases h : w.chunks.lookup (worldToChunk x y z) with
  | some ch => exact hwf
  | none =>
    refine ⟨?_, hwf.2⟩
    intro p hp
    rcases List.mem_append.mp hp with h1 | h1
    · exact hwf.1 p h1
    · rcases List.mem_singleton.mp h1 with rfl
      exact hwf.2 _

lemma setBlockAt_success_writes (w : World) (x y z : Int) (id : Nat) (hwf : w.WF)
    (h : ¬(id = AIR ∧ w.blockVal x y z = BEDROCK)) :
    (w.setBlockAt x y z id).1 = true ∧
      ((w.setBlockAt x y z id).2).blockVal x y z = id := by
  unfold World.setBlockAt
  by_cases hid : id = AIR
  · have hb : ¬ w.blockVal x y z = BEDROCK := fun hb => h ⟨hid, hb⟩
    simp only [if_pos hid, getBlockAt_fst, if_neg hb]
    refine ⟨by trivial, ?_⟩
    have hwf2 := getBlockAt_snd_WF w x y z hwf
    unfold World.blockVal
    rw [writeBlock_chunkVal_self]
    have hlen : (((w.getBlockAt x y z).2).chunkVal (worldToChunk x y z)).blocks.length =
        BLOCKS_PER_CHUNK := chunkVal_length hwf2 _
    exact getBlock_setBlock_self _ id (localAxis_bounds x) (localAxis_bounds y)
      (localAxis_bounds z) hlen
  · simp only [if_neg hid]
    exact ⟨by trivial, writeBlock_blockVal_self w x y z id hwf⟩

/-! Discrete-mode HTTP layer, embedding `convex/http.ts` together with the
chunks table of `convex/chunks.ts`.  The table maps a chunk coordinate to its
decoded block buffer; `decodeBlocks` and `encodeBlocks` (base64 transport
armor) are mutually inverse and are modelled as the identity on buffers.  The
terrain generator (`generateChunk` of `convex/lib/terrain.ts`) is passed as a
function argument. -/

structure BlockInfo where
  id : Nat
  name : String
  solid : Bool
  buildable : Bool
deriving DecidableEq, Repr

/-- The `BLOCK_INFO` table at the top of `convex/http.ts`. -/
def BLOCK_INFO : List BlockInfo := [
  ⟨0, "Air", false, false⟩, ⟨1, "Stone", true, true⟩, ⟨2, "Dirt", true, true⟩,
  ⟨3, "Grass", true, true⟩, ⟨4, "Wood", true, true⟩, ⟨5, "Leaves", true, true⟩,
  ⟨6, "Water", false, false⟩, ⟨7, "Sand", true, true⟩, ⟨8, "Bedrock", true, false⟩,
  ⟨9, "Red Flower", false, true⟩, ⟨10, "Yellow Flower", false, true⟩,
  ⟨11, "Tall Grass", false, true⟩]

/-- Embeds `BLOCK_INFO.find(b => b.id === blockType && b.buildable)` being
truthy. -/
def isBuildable (blockType : Nat) : Bool :=
  (BLOCK_INFO.find? (fun b => b.id == blockType && b.buildable)).isSome

/-- JavaScript array read `BLOCK_INFO[id]` for a possibly negative index
(out of range gives `undefined`). -/
def blockInfoAt (id : Int) : Option BlockInfo :=
  if id < 0 then none else BLOCK_INFO.get? id.toNat

/-- Embeds the truthiness of `currentBlockInfo && currentBlockInfo.solid`. -/
def isSolidId (id : Int) : Bool :=
  match blockInfoAt id with
  | some b => b.solid
  | none => false

/-- Embeds the helper `getBlockAt` in `convex/http.ts`: `-1` outside the local
range, `blocks[index] ?? 0` otherwise. -/
def httpGetBlockAt (blocks : List Nat) (lx ly lz : Int) : Int :=
  if lx < 0 ∨ 16 ≤ lx ∨ ly < 0 ∨ 16 ≤ ly ∨ lz < 0 ∨ 16 ≤ lz then -1
  else (blocks.getD (coordToIndex lx ly lz).toNat 0 : Int)

/-- Embeds the helper `setBlockAt` in `convex/http.ts`: indexed write. -/
def httpSetBlockAt (blocks : List Nat) (lx ly lz : Int) (blockType : Nat) : List Nat :=
  blocks.set (coordToIndex lx ly lz).toNat blockType

/-- The Convex chunks table, keyed by chunk coordinate (the string key
`"cx,cy,cz"` is injective in the coordinate). -/
abbrev ChunkDB := List (ChunkCoord × List Nat)

/-- Embeds `chunks.getOrGenerate` (one step of `getOrGenerateMany`): return the
stored buffer, or generate and insert. -/
def dbGetOrGenerate (gen : ChunkCoord → List Nat) (db : ChunkDB) (c : ChunkCoord) :
    List Nat × ChunkDB :=
  match db.lookup c with
  | some blocks => (blocks, db)
  | none => (gen c, db ++ [(c, gen c)])

/-- Embeds `chunks.save`: patch the existing row, or insert. -/
def dbSave (db : ChunkDB) (c : ChunkCoord) (blocks : List Nat) : ChunkDB :=
  if (db.lookup c).isSome then db.map (fun p => if p.1 = c then (c, blocks) else p)
  else db ++ [(c, blocks)]

/-- Observed buffer for a chunk coordinate (stored row if present, otherwise
what the generator would produce). -/
def dbChunkVal (gen : ChunkCoord → List Nat) (db : ChunkDB) (c : ChunkCoord) : List Nat :=
  (db.lookup c).getD (gen c)

/-- Observed block id at world coordinates, as the HTTP handlers read it. -/
def dbBlockVal (gen : ChunkCoord → List Nat) (db : ChunkDB) (x y z : Int) : Int :=
  httpGetBlockAt (dbChunkVal gen db (worldToChunk x y z)) (worldToLocal x y z).x
    (worldToLocal x y z).y (worldToLocal x y z).z

lemma dbGetOrGenerate_fst (gen : ChunkCoord → List Nat) (db : ChunkDB) (c : ChunkCoord) :
    (dbGetOrGenerate gen db c).1 = dbChunkVal gen db c := by
  unfold dbGetOrGenerate dbChunkVal
  cases h : db.lookup c <;> simp [h]

lemma dbGetOrGenerate_snd_chunkVal (gen : ChunkCoord → List Nat) (db : ChunkDB)
    (c k : ChunkCoord) : dbChunkVal gen (dbGetOrGenerate gen db c).2 k = dbChunkVal gen db k := by
  unfold dbGetOrGenerate
  cases h : db.lookup c with
  | some blocks => simp
  | none =>
    simp only
    unfold dbChunkVal
    by_cases hk : k = c
    · subst hk
      rw [lookup_append_none _ h, lookup_singleton, if_pos rfl]
      simp [h]
    · rcases h2 : db.lookup k with _ | v
      · rw [lookup_append_none _ h2, lookup_singleton, if_neg hk]
      · rw [lookup_append_some _ h2]

lemma dbGetOrGenerate_snd_lookup_self (gen : ChunkCoord → List Nat) (db : ChunkDB)
    (c : ChunkCoord) :
    ((dbGetOrGenerate gen db c).2).lookup c = some (dbChunkVal gen db c) := by
  unfold dbGetOrGenerate dbChunkVal
  cases h : db.lookup c with
  | some blocks => simp [h]
  | none =>
    simp only
    rw [lookup_append_none _ h, lookup_singleton, if_pos rfl]
    simp [h]

lemma dbSave_chunkVal_self (gen : ChunkCoord → List Nat) (db : ChunkDB) (c : ChunkCoord)
    (blocks : List Nat) (h : db.lookup c ≠ none) :
    dbChunkVal gen (dbSave db c blocks) c = blocks := by
  unfold dbSave dbChunkVal
  rcases h2 : db.lookup c with _ | v
  · exact absurd h2 h
  · rw [if_pos (by simp [h2]), lookup_map_replace, h2]
    simp

lemma dbSave_chunkVal_ne (gen : ChunkCoord → List Nat) (db : ChunkDB) {c k : ChunkCoord}
    (blocks : List Nat) (hk : k ≠ c) :
    dbChunkVal gen (dbSave db c blocks) k = dbChunkVal gen db k := by
  unfold dbSave dbChunkVal
  by_cases h2 : (db.lookup c).isSome
  · rw [if_pos h2, lookup_map_replace_ne _ _ hk]
  · rw [if_neg h2]
    rcases h3 : db.lookup k with _ | v
    · rw [lookup_append_none _ h3, lookup_singleton, if_neg hk]
    · rw [lookup_append_some _ h3]

/-- Result of the `place` case of POST `/agent/action` in `convex/http.ts`. -/
inductive PlaceRes where
  | invalidBlockType
  | occupied (existing : Int)
  | placed
deriving DecidableEq, Repr

/-- Embeds the `place` case of POST `/agent/action`: reject a non-buildable
block type, reject a solid current block, otherwise write through the chunk
store and save. -/
def httpPlace (gen : ChunkCoord → List Nat) (db : ChunkDB) (x y z : Int)
    (blockType : Nat) : PlaceRes × ChunkDB :=
  if ¬ isBuildable blockType then (.invalidBlockType, db)
  else
    let cc := worldToChunk x y z
    let r := dbGetOrGenerate gen db cc
    let l := worldToLocal x y z
    let cur := httpGetBlockAt r.1 l.x l.y l.z
    if isSolidId cur then (.occupied cur, r.2)
    else (.placed, dbSave r.2 cc (httpSetBlockAt r.1 l.x l.y l.z blockType))

/-- Result of the `break` case of POST `/agent/action`. -/
inductive BreakRes where
  | cannotBreakBedrock
  | noBlock
  | broken (was : Int)
deriving DecidableEq, Repr

/-- Embeds the `break` case of POST `/agent/action`: reject bedrock, reject
air, otherwise write air and save. -/
def httpBreak (gen : ChunkCoord → List Nat) (db : ChunkDB) (x y z : Int) :
    BreakRes × ChunkDB :=
  let cc := worldToChunk x y z
  let r := dbGetOrGenerate gen db cc
  let l := worldToLocal x y z
  let cur := httpGetBlockAt r.1 l.x l.y l.z
  if cur = ((BEDROCK : Nat) : Int) then (.cannotBreakBedrock, r.2)
  else if cur = ((AIR : Nat) : Int) then (.noBlock, r.2)
  else (.broken cur, dbSave r.2 cc (httpSetBlockAt r.1 l.x l.y l.z AIR))

/-- Embeds the `place_block` case of `GameServer.handleAction` in
`packages/server/src/game-server.ts`: place whenever the target currently reads
air (no buildability check); the boolean records whether a block-placed event
is broadcast. -/
def serverPlaceBlock (w : World) (x y z : Int) (blockId : Nat) : Bool × World :=
  let r := w.getBlockAt x y z
  if r.1 = AIR then (true, (r.2.setBlockAt x y z blockId).2)
  else (false, r.2)

lemma httpBreak_bedrock (gen : ChunkCoord → List Nat) (db : ChunkDB) (x y z : Int)
    (h : dbBlockVal gen db x y z = ((BEDROCK : Nat) : Int)) :
    (httpBreak gen db x y z).1 = BreakRes.cannotBreakBedrock ∧
    ∀ a b c : Int, dbBlockVal gen (httpBreak gen db x y z).2 a b c = dbBlockVal gen db a b c := by
  unfold dbBlockVal at h
  unfold httpBreak
  simp only [dbGetOrGenerate_fst]
  rw [if_pos h]
  refine ⟨rfl, ?_⟩
  intro a b c
  unfold dbBlockVal
  rw [dbGetOrGenerate_snd_chunkVal]

/-- Terrain generator producing solid bedrock chunks; used to instantiate the
store-level theorems at a world whose blocks are bedrock. -/
def bedrockChunkGen : ChunkCoord → Chunk := fun c =>
  { coord := c, blocks := List.replicate BLOCKS_PER_CHUNK BEDROCK, dirty := false }

/-- World over `bedrockChunkGen` with an empty cache. -/
def wBedrock : World := { chunks := [], gen := bedrockChunkGen }

/-- Buffer generator producing solid bedrock chunks for the HTTP layer. -/
def bedrockBufGen : ChunkCoord → List Nat := fun _ =>
  List.replicate BLOCKS_PER_CHUNK BEDROCK

lemma wBedrock_WF : wBedrock.WF := by
  constructor
  · intro p hp
    simp [wBedrock] at hp
  · intro c
    simp [wBedrock, bedrockChunkGen]

/-- C3: at every world position whose current block is bedrock, breaking
(setting the block to air) fails — `World.setBlockAt` returns `false` and the
HTTP break action answers `cannotBreakBedrock` — and every observable block
value is unchanged afterwards. -/
theorem c3_bedrock_break_rejected (w : World) (x y z : Int)
    (gen : ChunkCoord → List Nat) (db : ChunkDB) :
    (w.blockVal x y z = BEDROCK →
      (w.setBlockAt x y z AIR).1 = false ∧
      ∀ a b c : Int, ((w.setBlockAt x y z AIR).2).blockVal a b c = w.blockVal a b c) ∧
    (dbBlockVal gen db x y z = ((BEDROCK : Nat) : Int) →
      (httpBreak gen db x y z).1 = BreakRes.cannotBreakBedrock ∧
      ∀ a b c : Int, dbBlockVal gen (httpBreak gen db x y z).2 a b c =
        dbBlockVal gen db a b c) := by
  constructor
  · intro h
    refine ⟨(setBlockAt_fst_false_iff w x y z AIR).mpr ⟨rfl, h⟩, ?_⟩
    exact setBlockAt_fail_preserves w x y z AIR rfl h
  · intro h
    exact httpBreak_bedrock gen db x y z h

/-- C3 witness: the bedrock world at the origin. -/
theorem c3_bedrock_break_rejected_witness :
    wBedrock.blockVal 0 0 0 = BEDROCK ∧
    (wBedrock.setBlockAt 0 0 0 AIR).1 = false ∧
    (httpBreak bedrockBufGen [] 0 0 0).1 = BreakRes.cannotBreakBedrock := by
  have h1 : wBedrock.blockVal 0 0 0 = BEDROCK := by decide
  have h2 : dbBlockVal bedrockBufGen [] 0 0 0 = ((BEDROCK : Nat) : Int) := by decide
  exact ⟨h1, ((c3_bedrock_break_rejected wBedrock 0 0 0 bedrockBufGen []).1 h1).1,
    ((c3_bedrock_break_rejected wBedrock 0 0 0 bedrockBufGen []).2 h2).1⟩

/-- C10: `World.setBlockAt` returns `false` (and changes no observable block)
exactly when the new id is air and the current block is bedrock; for every
non-air id it returns `true` and writes the id — even over bedrock. -/
theorem c10_setblock_bedrock_overwrite (w : World) (x y z : Int) (id : Nat) :
    ((w.setBlockAt x y z id).1 = false ↔ (id = AIR ∧ w.blockVal x y z = BEDROCK)) ∧
    ((w.setBlockAt x y z id).1 = false →
      ∀ a b c : Int, ((w.setBlockAt x y z id).2).blockVal a b c = w.blockVal a b c) ∧
    (id ≠ AIR → w.WF →
      (w.setBlockAt x y z id).1 = true ∧
      ((w.setBlockAt x y z id).2).blockVal x y z = id) := by
  refine ⟨setBlockAt_fst_false_iff w x y z id, ?_, ?_⟩
  · intro h
    obtain ⟨hid, hb⟩ := (setBlockAt_fst_false_iff w x y z id).mp h
    exact setBlockAt_fail_preserves w x y z id hid hb
  · intro hid hwf
    exact setBlockAt_success_writes w x y z id hwf (fun hc => hid hc.1)

/-- C10 witness: overwriting bedrock with stone succeeds and the stone is
observable afterwards. -/
theorem c10_setblock_bedrock_overwrite_witness :
    wBedrock.blockVal 0 0 0 = BEDROCK ∧
    (wBedrock.setBlockAt 0 0 0 STONE).1 = true ∧
    ((wBedrock.setBlockAt 0 0 0 STONE).2).blockVal 0 0 0 = STONE := by
  have h := (c10_setblock_bedrock_overwrite wBedrock 0 0 0 STONE).2.2
    (by decide) wBedrock_WF
  exact ⟨by decide, h.1, h.2⟩

/-- Buffer well-formedness for the HTTP layer: stored and generated buffers
have 4096 entries. -/
def dbWF (gen : ChunkCoord → List Nat) (db : ChunkDB) : Prop :=
  (∀ p ∈ db, p.2.length = BLOCKS_PER_CHUNK) ∧
  (∀ c, (gen c).length = BLOCKS_PER_CHUNK)

lemma dbChunkVal_length {gen : ChunkCoord → List Nat} {db : ChunkDB}
    (h : dbWF gen db) (c : ChunkCoord) :
    (dbChunkVal gen db c).length = BLOCKS_PER_CHUNK := by
  unfold dbChunkVal
  rcases h2 : db.lookup c with _ | v
  · exact h.2 c
  · exact h.1 _ (lookup_mem h2)

lemma httpGetBlockAt_set_self (blocks : List Nat) {lx ly lz : Int} (bt : Nat)
    (hx : 0 ≤ lx ∧ lx < 16) (hy : 0 ≤ ly ∧ ly < 16) (hz : 0 ≤ lz ∧ lz < 16)
    (hlen : blocks.length = BLOCKS_PER_CHUNK) :
    httpGetBlockAt (httpSetBlockAt blocks lx ly lz bt) lx ly lz = (bt : Int) := by
  unfold httpGetBlockAt httpSetBlockAt
  rw [if_neg (by omega)]
  have hidx : (coordToIndex lx ly lz).toNat < blocks.length := by
    rw [hlen]; exact coordToIndex_toNat_lt hx hy hz
  simp [List.getD, List.getElem?_set_self hidx]

/-- All-air buffer generator for HTTP-layer witnesses. -/
def airBufGen : ChunkCoord → List Nat := fun _ => List.replicate BLOCKS_PER_CHUNK AIR

/-- World over `createChunk` (all-air chunks) with an empty cache. -/
def wAir : World := { chunks := [], gen := createChunk }

lemma wAir_WF : wAir.WF := by
  constructor
  · intro p hp
    simp [wAir] at hp
  · intro c
    simp [wAir, createChunk]

lemma airBufGen_WF : dbWF airBufGen [] := by
  constructor
  · intro p hp
    simp at hp
  · intro c
    simp [airBufGen]

/-- C4 counterexample: the WebSocket server's `place_block` handler performs no
buildability check — placing the non-buildable bedrock id at an air target
succeeds and writes bedrock, refuting the claim that every place request with a
non-buildable id fails. -/
theorem c4_counterexample :
    isBuildable BEDROCK = false ∧
    (serverPlaceBlock wAir 0 5 0 BEDROCK).1 = true ∧
    ((serverPlaceBlock wAir 0 5 0 BEDROCK).2).blockVal 0 5 0 = BEDROCK := by
  decide

/-- C4 amended: the HTTP place endpoint fails exactly on a non-buildable block
id or a solid target, otherwise writes through the chunk store; the WebSocket
server's `place_block` handler instead only requires the target to currently
read air and performs no buildability check (any id is written when the target
is air, and a non-air target — solid or not — is rejected). -/
theorem c4_place_rules (gen : ChunkCoord → List Nat) (db : ChunkDB)
    (x y z : Int) (bt : Nat) (w : World) :
    (isBuildable bt = false → httpPlace gen db x y z bt = (.invalidBlockType, db)) ∧
    (isBuildable bt = true → isSolidId (dbBlockVal gen db x y z) = true →
      (httpPlace gen db x y z bt).1 = .occupied (dbBlockVal gen db x y z) ∧
      ∀ a b c : Int, dbBlockVal gen (httpPlace gen db x y z bt).2 a b c =
        dbBlockVal gen db a b c) ∧
    (isBuildable bt = true → isSolidId (dbBlockVal gen db x y z) = false →
      (httpPlace gen db x y z bt).1 = .placed ∧
      (dbWF gen db → dbBlockVal gen (httpPlace gen db x y z bt).2 x y z = (bt : Int))) ∧
    (w.blockVal x y z = AIR →
      (serverPlaceBlock w x y z bt).1 = true ∧
      (w.WF → ((serverPlaceBlock w x y z bt).2).blockVal x y z = bt)) ∧
    (w.blockVal x y z ≠ AIR →
      (serverPlaceBlock w x y z bt).1 = false ∧
      ∀ a b c : Int, ((serverPlaceBlock w x y z bt).2).blockVal a b c =
        w.blockVal a b c) := by
  refine ⟨?_, ?_, ?_, ?_, ?_⟩
  · intro hb
    unfold httpPlace
    rw [if_pos (by simp [hb])]
  · intro hb hs
    unfold dbBlockVal at hs
    unfold httpPlace
    rw [if_neg (by simp [hb])]
    simp only [dbGetOrGenerate_fst]
    rw [if_pos hs]
    refine ⟨rfl, ?_⟩
    intro a b c
    unfold dbBlockVal
    rw [dbGetOrGenerate_snd_chunkVal]
  · intro hb hs
    unfold dbBlockVal at hs
    unfold httpPlace
    rw [if_neg (by simp [hb])]
    simp only [dbGetOrGenerate_fst]
    rw [if_neg (by simp [hs])]
    refine ⟨rfl, ?_⟩
    intro hwf
    unfold dbBlockVal
    have hne : ((dbGetOrGenerate gen db (worldToChunk x y z)).2).lookup
        (worldToChunk x y z) ≠ none := by
      rw [dbGetOrGenerate_snd_lookup_self]
      simp
    rw [dbSave_chunkVal_self _ _ _ _ hne]
    exact httpGetBlockAt_set_self _ bt (localAxis_bounds x) (localAxis_bounds y)
      (localAxis_bounds z) (dbChunkVal_length hwf _)
  · intro ha
    unfold serverPlaceBlock
    simp only [getBlockAt_fst]
    rw [if_pos ha]
    refine ⟨rfl, ?_⟩
    intro hwf
    have hwf2 := getBlockAt_snd_WF w x y z hwf
    have hnb : ¬(bt = AIR ∧ ((w.getBlockAt x y z).2).blockVal x y z = BEDROCK) := by
      rw [getBlockAt_snd_blockVal, ha]
      intro hc
      exact absurd hc.2 (by unfold AIR BEDROCK; omega)
    exact (setBlockAt_success_writes _ x y z bt hwf2 hnb).2
  · intro ha
    unfold serverPlaceBlock
    simp only [getBlockAt_fst]
    rw [if_neg ha]
    exact ⟨rfl, fun a b c => getBlockAt_snd_blockVal w x y z a b c⟩

/-- C4 witness: placing stone on an air target through the HTTP endpoint
succeeds, and the server handler places at an air target. -/
theorem c4_place_rules_witness :
    (httpPlace airBufGen [] 0 5 0 STONE).1 = .placed ∧
    dbBlockVal airBufGen (httpPlace airBufGen [] 0 5 0 STONE).2 0 5 0 = (STONE : Int) ∧
    (serverPlaceBlock wAir 0 5 0 STONE).1 = true := by
  have h := (c4_place_rules airBufGen [] 0 5 0 STONE wAir).2.2.1 (by decide) (by decide)
  have h2 := ((c4_place_rules airBufGen [] 0 5 0 STONE wAir).2.2.2.1 (by decide)).1
  exact ⟨h.1, h.2 airBufGen_WF, h2⟩


/-! Exact rational arithmetic.  `Rat`'s operations normalize through `Nat.gcd`,
which the kernel cannot reduce; the embedding instead uses plain
numerator/denominator pairs with the usual field operations.  Every value the
embedded code builds keeps a positive denominator, so the comparisons below
(which assume positive denominators) are the numeric ones. -/

structure Q where
  num : Int
  den : Int
deriving DecidableEq, Repr

def Q.ofInt (n : Int) : Q := ⟨n, 1⟩

def Q.add (a b : Q) : Q := ⟨a.num * b.den + b.num * a.den, a.den * b.den⟩

def Q.sub (a b : Q) : Q := ⟨a.num * b.den - b.num * a.den, a.den * b.den⟩

def Q.mul (a b : Q) : Q := ⟨a.num * b.num, a.den * b.den⟩

def Q.div (a b : Q) : Q := ⟨a.num * b.den, a.den * b.num⟩

def Q.neg (a : Q) : Q := ⟨-a.num, a.den⟩

/-- Strict comparison, correct when both denominators are positive. -/
def Q.blt (a b : Q) : Bool := decide (a.num * b.den < b.num * a.den)

/-- Non-strict comparison, correct when both denominators are positive. -/
def Q.ble (a b : Q) : Bool := decide (a.num * b.den ≤ b.num * a.den)

/-- `Math.floor`, correct when the denominator is positive. -/
def Q.floor (a : Q) : Int := a.num.fdiv a.den

/-- `Math.ceil`, correct when the denominator is positive. -/
def Q.ceil (a : Q) : Int := -((-a.num).fdiv a.den)

/-- The rational value represented (for statements relating `Q` to `ℚ`). -/
def Q.val (a : Q) : ℚ := (a.num : ℚ) / (a.den : ℚ)

/-! Permutation-based noise, embedding the `SimplexNoise` class of
`packages/world/src/noise.ts` and `convex/lib/noise.ts` (identical sources).
The constructor's shuffle computes `n = (n * 1103515245 + 12345) & 0x7fffffff`;
JavaScript evaluates the product in binary64 before masking, which can round
for large `n` — the embedding uses the exact integer value of the same
expression.  The decimal scale constants (`0.01`, `0.1`, `0.3`) are embedded as
the exact rationals they denote. -/

/-- One step of the constructor's linear congruential recurrence. -/
def lcgNext (n : Nat) : Nat := (n * 1103515245 + 12345) % 2 ^ 31

/-- One iteration of the constructor's shuffle: advance the recurrence, pick
`j = n % (i + 1)`, swap entries `i` and `j`. -/
def shuffleStep (st : Nat × List Nat) (i : Nat) : Nat × List Nat :=
  let n := lcgNext st.1
  let j := n % (i + 1)
  let p := st.2
  let a := p.getD i 0
  let b := p.getD j 0
  (n, (p.set i b).set j a)

/-- The shuffled 256-entry permutation built from the seed (`p` in the
constructor); the loop runs `i = 255` down to `1`. -/
def permBase (seed : Nat) : List Nat :=
  (((List.range 255).map (fun k => 255 - k)).foldl shuffleStep (seed, List.range 256)).2

/-- The 512-entry table `perm` with `perm[i] = p[i & 255]`: two copies of `p`. -/
def permTable (seed : Nat) : List Nat := permBase seed ++ permBase seed

/-- Embeds `fade`: `t*t*t*(t*(t*6-15)+10)`. -/
def fade (t : Q) : Q :=
  Q.mul (Q.mul (Q.mul t t) t)
    (Q.add (Q.mul t (Q.sub (Q.mul t ⟨6, 1⟩) ⟨15, 1⟩)) ⟨10, 1⟩)

/-- Embeds `lerp`: `a + t*(b-a)`. -/
def lerp (a b t : Q) : Q := Q.add a (Q.mul t (Q.sub b a))

/-- Embeds `grad`: `h & 7`, `u`/`v` from `h < 4`, `(h & 1) ? -u : u` plus
`(h & 2) ? -2v : 2v`. -/
def grad (hash : Nat) (x y : Q) : Q :=
  let h := hash % 8
  let u := if h < 4 then x else y
  let v := if h < 4 then y else x
  Q.add (if h % 2 = 1 then Q.neg u else u)
    (if h / 2 % 2 = 1 then Q.mul ⟨-2, 1⟩ v else Q.mul ⟨2, 1⟩ v)

/-- Embeds `noise2D`; `Math.floor(v) & 255` on a possibly negative integer is
the nonnegative remainder mod 256. -/
def noise2D (perm : List Nat) (x y : Q) : Q :=
  let X : Nat := (Q.floor x % 256).toNat
  let Y : Nat := (Q.floor y % 256).toNat
  let xf := Q.sub x (Q.ofInt (Q.floor x))
  let yf := Q.sub y (Q.ofInt (Q.floor y))
  let u := fade xf
  let v := fade yf
  let A := perm.getD X 0 + Y
  let B := perm.getD (X + 1) 0 + Y
  lerp
    (lerp (grad (perm.getD A 0) xf yf) (grad (perm.getD B 0) (Q.sub xf ⟨1, 1⟩) yf) u)
    (lerp (grad (perm.getD (A + 1) 0) xf (Q.sub yf ⟨1, 1⟩))
      (grad (perm.getD (B + 1) 0) (Q.sub xf ⟨1, 1⟩) (Q.sub yf ⟨1, 1⟩)) u)
    v

/-- Embeds `fbm` with the default lacunarity 2 and persistence 0.5: a running
(value, amplitude, frequency, maxValue) accumulator, then `value / maxValue`. -/
def fbm (perm : List Nat) (x y : Q) (octaves : Nat) : Q :=
  let r := (List.range octaves).foldl
    (fun (st : Q × Q × Q × Q) _ =>
      (Q.add st.1 (Q.mul st.2.1 (noise2D perm (Q.mul x st.2.2.1) (Q.mul y st.2.2.1))),
        Q.mul st.2.1 ⟨1, 2⟩, Q.mul st.2.2.1 ⟨2, 1⟩, Q.add st.2.2.2 st.2.1))
    (⟨0, 1⟩, ⟨1, 1⟩, ⟨1, 1⟩, ⟨0, 1⟩)
  Q.div r.1 r.2.2.2

/-- Generator configuration (`GeneratorConfig`, with `DEFAULT_CONFIG` seed 42,
sea level 64, base height 64, height variation 32). -/
structure GeneratorConfig where
  seed : Nat
  seaLevel : Int
  baseHeight : Int
  heightVariation : Int

def DEFAULT_CONFIG : GeneratorConfig :=
  { seed := 42, seaLevel := 64, baseHeight := 64, heightVariation := 32 }

/-- Embeds `getHeightAt` (both generators): 4-octave fbm at horizontal scale
0.01, then `Math.floor(baseHeight + height * heightVariation)`. -/
def getHeightAt (perm : List Nat) (cfg : GeneratorConfig) (worldX worldZ : Int) : Int :=
  let height := fbm perm (Q.mul (Q.ofInt worldX) ⟨1, 100⟩)
    (Q.mul (Q.ofInt worldZ) ⟨1, 100⟩) 4
  Q.floor (Q.add (Q.ofInt cfg.baseHeight) (Q.mul height (Q.ofInt cfg.heightVariation)))

/-- Embeds `getBlockAt` (the depth rule, identical in
`packages/world/src/generator.ts` and `convex/lib/terrain.ts`). -/
def getBlockAtDepth (cfg : GeneratorConfig) (worldY terrainHeight : Int) : Nat :=
  if worldY = 0 then BEDROCK
  else if worldY < terrainHeight - 4 then STONE
  else if worldY < terrainHeight then DIRT
  else if worldY = terrainHeight then
    (if terrainHeight < cfg.seaLevel - 2 then SAND else GRASS)
  else if worldY ≤ cfg.seaLevel ∧ terrainHeight < cfg.seaLevel then WATER
  else AIR

/-- Integer range `[a, b]` inclusive, for `for` loops over signed bounds. -/
def rangeIncl (a b : Int) : List Int :=
  (List.range (b - a + 1).toNat).map (fun k => a + (k : Int))

/-! Continuous-mode terrain generator, embedding the `TerrainGenerator` class of
`packages/world/src/generator.ts`.  `placeTree` derives the trunk height from
`Math.random()`, an unseeded random source external to the program; the
embedding makes each draw an explicit rational parameter (`r`, or the stream
`rng` indexed by draw order). -/

/-- Embeds `TerrainGenerator.placeTree` with the `Math.random()` draw made
explicit as `r`: trunk height `4 + Math.floor(r * 2)`, wood trunk, rounded
leaf canopy that skips the trunk's own cells. -/
def placeTree (ch : Chunk) (x y z : Int) (r : Q) : Chunk :=
  let trunkHeight : Int := 4 + Q.floor (Q.mul r ⟨2, 1⟩)
  let ch := (List.range trunkHeight.toNat).foldl
    (fun ch (i : Nat) =>
      if y + (i : Int) < 16 then setBlock ch x (y + (i : Int)) z WOOD else ch) ch
  let leafStart := y + trunkHeight - 1
  (List.range 3).foldl (fun ch (dy : Nat) =>
    (rangeIncl (-2) 2).foldl (fun ch dx =>
      (rangeIncl (-2) 2).foldl (fun ch dz =>
        if |dx| = 2 ∧ |dz| = 2 then ch
        else if (dy : Int) = 2 ∧ (1 < |dx| ∨ 1 < |dz|) then ch
        else
          let lx := x + dx
          let ly := leafStart + (dy : Int)
          let lz := z + dz
          if 0 ≤ lx ∧ lx < 16 ∧ 0 ≤ ly ∧ ly < 16 ∧ 0 ≤ lz ∧ lz < 16 then
            (if ¬(dx = 0 ∧ dz = 0 ∧ (dy : Int) < 2) then setBlock ch lx ly lz LEAVES
             else ch)
          else ch) ch) ch) ch

/-- Embeds `TerrainGenerator.addTrees` (grid columns `lx, lz` in `{2,7,12}`,
tree-noise gate at 0.3, only strictly above sea level, tree must fit in the
chunk); threads the count of `Math.random()` draws through the fold. -/
def addTreesG (cfg : GeneratorConfig) (perm treePerm : List Nat) (rng : Nat → Q)
    (worldBaseX worldBaseY worldBaseZ : Int) (ch : Chunk) : Chunk × Nat :=
  ([2, 7, 12] : List Int).foldl (fun st lx =>
    ([2, 7, 12] : List Int).foldl (fun st lz =>
      let worldX := worldBaseX + lx
      let worldZ := worldBaseZ + lz
      let treeValue := noise2D treePerm (Q.mul (Q.ofInt worldX) ⟨1, 10⟩)
        (Q.mul (Q.ofInt worldZ) ⟨1, 10⟩)
      if Q.blt treeValue ⟨3, 10⟩ then st
      else
        let h := getHeightAt perm cfg worldX worldZ
        if h ≤ cfg.seaLevel then st
        else
          let treeBaseY := h + 1 - worldBaseY
          if treeBaseY < 0 ∨ (16 - 5 : Int) ≤ treeBaseY then st
          else (placeTree st.1 lx treeBaseY lz (rng st.2), st.2 + 1)) st) (ch, 0)

/-- Embeds the terrain-filling loops of `TerrainGenerator.generateChunk`. -/
def genTerrainFill (cfg : GeneratorConfig) (perm : List Nat) (coord : ChunkCoord) : Chunk :=
  let worldBaseX := coord.cx * 16
  let worldBaseY := coord.cy * 16
  let worldBaseZ := coord.cz * 16
  (List.range 16).foldl (fun ch (lx : Nat) =>
    (List.range 16).foldl (fun ch (lz : Nat) =>
      let worldX := worldBaseX + (lx : Int)
      let worldZ := worldBaseZ + (lz : Int)
      let h := getHeightAt perm cfg worldX worldZ
      (List.range 16).foldl (fun ch (ly : Nat) =>
        let worldY := worldBaseY + (ly : Int)
        let bt := getBlockAtDepth cfg worldY h
        if bt ≠ AIR then setBlock ch (lx : Int) (ly : Int) (lz : Int) bt else ch) ch) ch)
    (createChunk coord)

/-- Embeds `TerrainGenerator.generateChunk`: fill by the depth rule, add trees
for chunk layers near ground level
(`cy >= 0 && cy <= Math.ceil(baseHeight / CHUNK_SIZE) + 2`), then clear the
dirty flag. -/
def generateChunkG (cfg : GeneratorConfig) (rng : Nat → Q) (coord : ChunkCoord) : Chunk :=
  let perm := permTable cfg.seed
  let treePerm := permTable (cfg.seed + 1000)
  let ch := genTerrainFill cfg perm coord
  let ch :=
    if 0 ≤ coord.cy ∧ coord.cy ≤ Q.ceil ⟨cfg.baseHeight, 16⟩ + 2 then
      (addTreesG cfg perm treePerm rng (coord.cx * 16) (coord.cy * 16) (coord.cz * 16) ch).1
    else ch
  { ch with dirty := false }

/-! Discrete-mode terrain generator, embedding `generateChunk` of
`convex/lib/terrain.ts`.  The trees stage derives trunk heights from
`seededRandom`, a fractional-sine hash
(`Math.sin(x*12.9898 + z*78.233 + seed) * 43758.5453` fractional part): a
deterministic pure function of position and seed, computed with the platform's
floating-point sine, which has no exact rational embedding; it is therefore
passed as an explicit oracle `rand : Int → Int → Q`.  Every theorem below
about this generator holds for all choices of the oracle. -/

/-- Embeds the helper `setBlock` of `convex/lib/terrain.ts` (bounds-checked
indexed write). -/
def setBlockB (blocks : List Nat) (lx ly lz : Int) (bt : Nat) : List Nat :=
  if 0 ≤ lx ∧ lx < 16 ∧ 0 ≤ ly ∧ ly < 16 ∧ 0 ≤ lz ∧ lz < 16 then
    blocks.set (coordToIndex lx ly lz).toNat bt
  else blocks

/-- One column of the terrain-generation loops of `generateChunk`: height from
the noise, then the depth rule per local y, writing non-air blocks at
`lx + ly*16 + lz*256`. -/
def terrainColumnC (cfg : GeneratorConfig) (perm : List Nat)
    (worldBaseX worldBaseY worldBaseZ : Int) (blocks : List Nat) (lx lz : Nat) :
    List Nat :=
  let worldX := worldBaseX + (lx : Int)
  let worldZ := worldBaseZ + (lz : Int)
  let h := getHeightAt perm cfg worldX worldZ
  (List.range 16).foldl (fun blocks (ly : Nat) =>
    let worldY := worldBaseY + (ly : Int)
    let bt := getBlockAtDepth cfg worldY h
    if bt ≠ AIR then blocks.set (lx + ly * 16 + lz * 256) bt else blocks) blocks

/-- Embeds the terrain-generation loops of `generateChunk` (direct indexed
writes of non-air depth-rule blocks into a fresh 4096 buffer). -/
def terrainFillC (cfg : GeneratorConfig) (perm : List Nat)
    (worldBaseX worldBaseY worldBaseZ : Int) : List Nat :=
  (List.range 16).foldl (fun blocks (lx : Nat) =>
    (List.range 16).foldl (fun blocks (lz : Nat) =>
      terrainColumnC cfg perm worldBaseX worldBaseY worldBaseZ blocks lx lz) blocks)
    (List.replicate BLOCKS_PER_CHUNK AIR)

/-- One column of the spawn-platform disc loop: inside radius 8
(`Math.sqrt(x²+z²) <= 8` on integers is exactly `x²+z² <= 64`), write the
checkerboard stone/dirt surface at the base height and clear headroom above. -/
def platColumnC (cfg : GeneratorConfig) (worldBaseX worldBaseY worldBaseZ : Int)
    (blocks : List Nat) (lx lz : Nat) : List Nat :=
  let spawnY := cfg.baseHeight
  let worldX := worldBaseX + (lx : Int)
  let worldZ := worldBaseZ + (lz : Int)
  if worldX * worldX + worldZ * worldZ ≤ 64 then
    (List.range 16).foldl (fun blocks (ly : Nat) =>
      let worldY := worldBaseY + (ly : Int)
      if worldY = spawnY then
        (if (worldX.natAbs + worldZ.natAbs) % 2 = 0 then
          setBlockB blocks (lx : Int) (ly : Int) (lz : Int) STONE
         else setBlockB blocks (lx : Int) (ly : Int) (lz : Int) DIRT)
      else if spawnY < worldY ∧ worldY < spawnY + 10 then
        setBlockB blocks (lx : Int) (ly : Int) (lz : Int) AIR
      else blocks) blocks
  else blocks

/-- One corner pillar of the spawn platform: a wood column of height 4 above
the base height, capped with leaves. -/
def pillarC (cfg : GeneratorConfig) (worldBaseX worldBaseY worldBaseZ : Int)
    (blocks : List Nat) (pp : Int × Int) : List Nat :=
  let spawnY := cfg.baseHeight
  let lx := pp.1 - worldBaseX
  let lz := pp.2 - worldBaseZ
  if 0 ≤ lx ∧ lx < 16 ∧ 0 ≤ lz ∧ lz < 16 then
    let blocks := (rangeIncl 1 4).foldl (fun blocks h =>
      let ly := spawnY + h - worldBaseY
      if 0 ≤ ly ∧ ly < 16 then setBlockB blocks lx ly lz WOOD else blocks) blocks
    let topY := spawnY + 5 - worldBaseY
    if 0 ≤ topY ∧ topY < 16 then setBlockB blocks lx topY lz LEAVES else blocks
  else blocks

/-- Embeds `addSpawnPlatform`: the disc loop, the four corner pillars, and the
center beacon column. -/
def addSpawnPlatformC (cfg : GeneratorConfig)
    (worldBaseX worldBaseY worldBaseZ : Int) (blocks0 : List Nat) : List Nat :=
  let spawnY := cfg.baseHeight
  let blocks1 := (List.range 16).foldl (fun blocks (lx : Nat) =>
    (List.range 16).foldl (fun blocks (lz : Nat) =>
      platColumnC cfg worldBaseX worldBaseY worldBaseZ blocks lx lz) blocks) blocks0
  let blocks2 := ([(-6, -6), (-6, 6), (6, -6), (6, 6)] : List (Int × Int)).foldl
    (fun blocks pp => pillarC cfg worldBaseX worldBaseY worldBaseZ blocks pp) blocks1
  let centerX := 0 - worldBaseX
  let centerZ := 0 - worldBaseZ
  if 0 ≤ centerX ∧ centerX < 16 ∧ 0 ≤ centerZ ∧ centerZ < 16 then
    (rangeIncl 1 8).foldl (fun blocks h =>
      let ly := spawnY + h - worldBaseY
      if 0 ≤ ly ∧ ly < 16 then
        setBlockB blocks centerX ly centerZ (if h ≤ 2 then STONE else LEAVES)
      else blocks) blocks2
  else blocks2

/-- One grid point of `addTrees` in `convex/lib/terrain.ts`: skip the spawn
area (`|worldX| <= 10 && |worldZ| <= 10`), gate on the tree noise at 0.3,
require land strictly above sea level and room in the chunk, then place the
trunk (height `4 + Math.floor(seededRandom(x,z) * 2)` through the `rand`
oracle) and the leaf canopy. -/
def treePointC (cfg : GeneratorConfig) (perm treePerm : List Nat)
    (rand : Int → Int → Q) (worldBaseX worldBaseY worldBaseZ : Int)
    (blocks : List Nat) (lx lz : Int) : List Nat :=
  let worldX := worldBaseX + lx
  let worldZ := worldBaseZ + lz
  if |worldX| ≤ 10 ∧ |worldZ| ≤ 10 then blocks
  else
    let treeValue := noise2D treePerm (Q.mul (Q.ofInt worldX) ⟨1, 10⟩)
      (Q.mul (Q.ofInt worldZ) ⟨1, 10⟩)
    if Q.blt treeValue ⟨3, 10⟩ then blocks
    else
      let h := getHeightAt perm cfg worldX worldZ
      if h ≤ cfg.seaLevel then blocks
      else
        let treeBaseY := h + 1 - worldBaseY
        if treeBaseY < 0 ∨ (16 - 5 : Int) ≤ treeBaseY then blocks
        else
          let trunkHeight : Int := 4 + Q.floor (Q.mul (rand worldX worldZ) ⟨2, 1⟩)
          let blocks := (List.range trunkHeight.toNat).foldl (fun blocks (i : Nat) =>
            if treeBaseY + (i : Int) < 16 then
              setBlockB blocks lx (treeBaseY + (i : Int)) lz WOOD
            else blocks) blocks
          let leafStart := treeBaseY + trunkHeight - 1
          (List.range 3).foldl (fun blocks (dy : Nat) =>
            (rangeIncl (-2) 2).foldl (fun blocks dx =>
              (rangeIncl (-2) 2).foldl (fun blocks dz =>
                if |dx| = 2 ∧ |dz| = 2 then blocks
                else if (dy : Int) = 2 ∧ (1 < |dx| ∨ 1 < |dz|) then blocks
                else
                  let nlx := lx + dx
                  let nly := leafStart + (dy : Int)
                  let nlz := lz + dz
                  if 0 ≤ nlx ∧ nlx < 16 ∧ 0 ≤ nly ∧ nly < 16 ∧
                      0 ≤ nlz ∧ nlz < 16 then
                    (if ¬(dx = 0 ∧ dz = 0 ∧ (dy : Int) < 2) then
                      setBlockB blocks nlx nly nlz LEAVES
                     else blocks)
                  else blocks) blocks) blocks) blocks

/-- Embeds `addTrees` of `convex/lib/terrain.ts`: grid columns in `{2,7,12}`
on both axes. -/
def addTreesC (cfg : GeneratorConfig) (perm treePerm : List Nat)
    (rand : Int → Int → Q) (worldBaseX worldBaseY worldBaseZ : Int)
    (blocks0 : List Nat) : List Nat :=
  ([2, 7, 12] : List Int).foldl (fun blocks lx =>
    ([2, 7, 12] : List Int).foldl (fun blocks lz =>
      treePointC cfg perm treePerm rand worldBaseX worldBaseY worldBaseZ blocks lx lz)
      blocks) blocks0

/-- One column of `addVegetation`: skip the spawn area, require land strictly
above sea level, then place tall grass or a flower per the vegetation-noise
value ranges. -/
def vegPointC (cfg : GeneratorConfig) (perm vegPerm : List Nat)
    (worldBaseX worldBaseY worldBaseZ : Int) (blocks : List Nat) (lx lz : Nat) :
    List Nat :=
  let worldX := worldBaseX + (lx : Int)
  let worldZ := worldBaseZ + (lz : Int)
  if |worldX| ≤ 10 ∧ |worldZ| ≤ 10 then blocks
  else
    let h := getHeightAt perm cfg worldX worldZ
    if h ≤ cfg.seaLevel then blocks
    else
      let vy := h + 1 - worldBaseY
      if vy < 0 ∨ 16 ≤ vy then blocks
      else
        let value := noise2D vegPerm (Q.mul (Q.ofInt worldX) ⟨3, 10⟩)
          (Q.mul (Q.ofInt worldZ) ⟨3, 10⟩)
        if Q.blt ⟨1, 5⟩ value ∧ Q.blt value ⟨3, 5⟩ then
          setBlockB blocks (lx : Int) vy (lz : Int) TALL_GRASS
        else if Q.ble ⟨3, 5⟩ value then
          setBlockB blocks (lx : Int) vy (lz : Int)
            (if Q.blt ⟨3, 4⟩ value then FLOWER_RED else FLOWER_YELLOW)
        else blocks

/-- Embeds `addVegetation`: the per-column loop over the whole chunk. -/
def addVegetationC (cfg : GeneratorConfig) (perm vegPerm : List Nat)
    (worldBaseX worldBaseY worldBaseZ : Int) (blocks0 : List Nat) : List Nat :=
  (List.range 16).foldl (fun blocks (lx : Nat) =>
    (List.range 16).foldl (fun blocks (lz : Nat) =>
      vegPointC cfg perm vegPerm worldBaseX worldBaseY worldBaseZ blocks lx lz)
      blocks) blocks0

/-- Embeds `generateChunk` of `convex/lib/terrain.ts`: three noise sources from
the seed and fixed offsets, terrain fill, spawn platform, then trees and
vegetation for chunk layers near ground level. -/
def generateChunkC (rand : Int → Int → Q) (cfg : GeneratorConfig)
    (cx cy cz : Int) : List Nat :=
  let perm := permTable cfg.seed
  let treePerm := permTable (cfg.seed + 1000)
  let vegPerm := permTable (cfg.seed + 2000)
  let worldBaseX := cx * 16
  let worldBaseY := cy * 16
  let worldBaseZ := cz * 16
  let blocks := terrainFillC cfg perm worldBaseX worldBaseY worldBaseZ
  let blocks := addSpawnPlatformC cfg worldBaseX worldBaseY worldBaseZ blocks
  if 0 ≤ cy ∧ cy ≤ Q.ceil ⟨cfg.baseHeight, 16⟩ + 2 then
    addVegetationC cfg perm vegPerm worldBaseX worldBaseY worldBaseZ
      (addTreesC cfg perm treePerm rand worldBaseX worldBaseY worldBaseZ blocks)
  else blocks

/-! Fold invariants used to reason about the generator's write loops. -/

lemma foldl_id {α β : Type} (f : β → α → β) :
    ∀ (l : List α), (∀ b a, a ∈ l → f b a = b) → ∀ b, l.foldl f b = b := by
  intro l
  induction l with
  | nil => intro _ b; rfl
  | cons a t ih =>
    intro hf b
    rw [List.foldl_cons, hf b a (List.mem_cons_self _ _)]
    exact ih (fun b a ha => hf b a (List.mem_cons_of_mem _ ha)) b

lemma foldl_pres {α β : Type} (f : β → α → β) (P : β → Prop)
    (hf : ∀ b a, P b → P (f b a)) :
    ∀ (l : List α) (b : β), P b → P (l.foldl f b) := by
  intro l
  induction l with
  | nil => intro b hb; exact hb
  | cons a t ih =>
    intro b hb
    rw [List.foldl_cons]
    exact ih _ (hf b a hb)

lemma foldl_pres_mem {α β : Type} (f : β → α → β) (P : β → Prop) (L : List α)
    (hf : ∀ b a, a ∈ L → P b → P (f b a)) :
    ∀ (l : List α), l ⊆ L → ∀ b, P b → P (l.foldl f b) := by
  intro l
  induction l with
  | nil => intro _ b hb; exact hb
  | cons a t ih =>
    intro hsub b hb
    rw [List.foldl_cons]
    exact ih (fun y hy => hsub (List.mem_cons_of_mem _ hy)) _
      (hf b a (hsub (List.mem_cons_self _ _)) hb)

lemma foldl_once {α β : Type} (f : β → α → β) (Inv P : β → Prop) (L : List α) (x : α)
    (hInv : ∀ b a, a ∈ L → Inv b → Inv (f b a))
    (hest : ∀ b, Inv b → P (f b x) ∧ Inv (f b x))
    (hpres : ∀ b a, a ∈ L → Inv b → P b → P (f b a)) :
    ∀ (l : List α), l ⊆ L → x ∈ l → ∀ b, Inv b →
      P (l.foldl f b) ∧ Inv (l.foldl f b) := by
  intro l
  induction l with
  | nil => intro _ hx; cases hx
  | cons a t ih =>
    intro hsub hx b hb
    rw [List.foldl_cons]
    by_cases hax : a = x
    · subst hax
      have h1 := hest b hb
      exact foldl_pres_mem f (fun b => P b ∧ Inv b) L
        (fun b2 a2 ha2 hb2 => ⟨hpres b2 a2 ha2 hb2.2 hb2.1, hInv b2 a2 ha2 hb2.2⟩)
        t (fun y hy => hsub (List.mem_cons_of_mem _ hy)) _ ⟨h1.1, h1.2⟩
    · have hx2 : x ∈ t := by
        rcases List.mem_cons.mp hx with h | h
        · exact absurd h.symm hax
        · exact h
      exact ih (fun y hy => hsub (List.mem_cons_of_mem _ hy)) hx2 _
        (hInv b a (hsub (List.mem_cons_self _ _)) hb)

lemma getD_set_ne (b : List Nat) {i j : Nat} (v : Nat) (h : i ≠ j) :
    (b.set i v).getD j 0 = b.getD j 0 := by
  simp [List.getD, List.getElem?_set_ne h]

lemma getD_set_self (b : List Nat) {i : Nat} (v : Nat) (h : i < b.length) :
    (b.set i v).getD i 0 = v := by
  simp [List.getD, List.getElem?_set_self h]

lemma setBlockB_length (b : List Nat) (lx ly lz : Int) (bt : Nat) :
    (setBlockB b lx ly lz bt).length = b.length := by
  unfold setBlockB
  by_cases hg : 0 ≤ lx ∧ lx < 16 ∧ 0 ≤ ly ∧ ly < 16 ∧ 0 ≤ lz ∧ lz < 16
  · rw [if_pos hg]
    simp
  · rw [if_neg hg]

lemma setBlockB_getD_ne (b : List Nat) (lx ly lz : Int) (bt : Nat) {x y z : Nat}
    (hx : x < 16) (hy : y < 16) (hz : z < 16)
    (hne : ¬(lx = (x : Int) ∧ ly = (y : Int) ∧ lz = (z : Int))) :
    (setBlockB b lx ly lz bt).getD (x + y * 16 + z * 256) 0 =
      b.getD (x + y * 16 + z * 256) 0 := by
  unfold setBlockB
  by_cases hg : 0 ≤ lx ∧ lx < 16 ∧ 0 ≤ ly ∧ ly < 16 ∧ 0 ≤ lz ∧ lz < 16
  · rw [if_pos hg]
    apply getD_set_ne
    unfold coordToIndex
    omega
  · rw [if_neg hg]

/-! Stage lemmas for C8.  For a chunk with `worldBaseY = 0` (the only chunk
layer containing world Y = 0), the tree and vegetation stages are no-ops: a
column passing the sea-level gate has height above sea level, so the feature
base `h + 1` lies far beyond the chunk's local y range.  These lemmas hold for
every noise table and every `rand` oracle. -/

lemma treePointC_base0_id (cfg : GeneratorConfig) (h10 : 10 ≤ cfg.seaLevel)
    (perm treePerm : List Nat) (rand : Int → Int → Q) (b : List Nat) (lx lz : Int) :
    treePointC cfg perm treePerm rand 0 0 0 b lx lz = b := by
  unfold treePointC
  dsimp only
  split
  · rfl
  · split
    · rfl
    · split
      · rfl
      · split
        · rfl
        · exfalso
          rename_i h1 h2 h3 h4
          omega

lemma vegPointC_base0_id (cfg : GeneratorConfig) (h15 : 15 ≤ cfg.seaLevel)
    (perm vegPerm : List Nat) (b : List Nat) (lx lz : Nat) :
    vegPointC cfg perm vegPerm 0 0 0 b lx lz = b := by
  unfold vegPointC
  dsimp only
  split
  · rfl
  · split
    · rfl
    · split
      · rfl
      · exfalso
        rename_i h1 h2 h3
        omega

lemma addTreesC_base0_id (cfg : GeneratorConfig) (h10 : 10 ≤ cfg.seaLevel)
    (perm treePerm : List Nat) (rand : Int → Int → Q) (b : List Nat) :
    addTreesC cfg perm treePerm rand 0 0 0 b = b := by
  unfold addTreesC
  apply foldl_id
  intro b2 lx _
  apply foldl_id
  intro b3 lz _
  exact treePointC_base0_id cfg h10 perm treePerm rand b3 lx lz

lemma addVegetationC_base0_id (cfg : GeneratorConfig) (h15 : 15 ≤ cfg.seaLevel)
    (perm vegPerm : List Nat) (b : List Nat) :
    addVegetationC cfg perm vegPerm 0 0 0 b = b := by
  unfold addVegetationC
  apply foldl_id
  intro b2 lx _
  apply foldl_id
  intro b3 lz _
  exact vegPointC_base0_id cfg h15 perm vegPerm b3 lx lz

set_option maxRecDepth 20000 in
lemma plat000_id (b : List Nat) : addSpawnPlatformC DEFAULT_CONFIG 0 0 0 b = b := rfl

/-- For chunk (0,0,0) the generator reduces to the terrain fill: the spawn
platform's writes all target world Y in [64, 74) and the tree/vegetation
stages are no-ops (for every `rand` oracle). -/
lemma generateChunkC_000 (rand : Int → Int → Q) :
    generateChunkC rand DEFAULT_CONFIG 0 0 0 =
      terrainFillC DEFAULT_CONFIG (permTable DEFAULT_CONFIG.seed) 0 0 0 := by
  unfold generateChunkC
  dsimp only
  rw [if_pos (by decide)]
  simp only [zero_mul]
  rw [plat000_id, addTreesC_base0_id DEFAULT_CONFIG (by decide),
    addVegetationC_base0_id DEFAULT_CONFIG (by decide)]

lemma terrainColumnC_length (cfg : GeneratorConfig) (perm : List Nat)
    (wbX wbY wbZ : Int) (b : List Nat) (lx lz : Nat) :
    (terrainColumnC cfg perm wbX wbY wbZ b lx lz).length = b.length := by
  unfold terrainColumnC
  dsimp only
  refine foldl_pres _ (fun b2 => b2.length = b.length) ?_ (List.range 16) b rfl
  intro b2 a hb2
  dsimp only
  split
  · rw [List.length_set]
    exact hb2
  · exact hb2

lemma terrainColumnC_base0_pres (cfg : GeneratorConfig) (perm : List Nat)
    (wbX wbZ : Int) {x z : Nat} (hx : x < 16) (hz : z < 16)
    (lx lz : Nat) (hlx : lx < 16) (hlz : lz < 16) (b : List Nat)
    (hlen : b.length = BLOCKS_PER_CHUNK)
    (hP : b.getD (x + 0 * 16 + z * 256) 0 = BEDROCK) :
    (terrainColumnC cfg perm wbX 0 wbZ b lx lz).getD (x + 0 * 16 + z * 256) 0 =
      BEDROCK := by
  unfold terrainColumnC
  dsimp only
  refine (foldl_pres_mem _
    (fun b2 => b2.length = BLOCKS_PER_CHUNK ∧
      b2.getD (x + 0 * 16 + z * 256) 0 = BEDROCK) (List.range 16)
    ?_ (List.range 16) (fun y hy => hy) b ⟨hlen, hP⟩).2
  intro b2 a ha hb2
  have ha16 : a < 16 := List.mem_range.mp ha
  split
  · refine ⟨by rw [List.length_set]; exact hb2.1, ?_⟩
    by_cases hidx : lx + a * 16 + lz * 256 = x + 0 * 16 + z * 256
    · have hax : lx = x ∧ a = 0 ∧ lz = z := by omega
      obtain ⟨h1, h2, h3⟩ := hax
      subst h1; subst h2; subst h3
      have hb0 : getBlockAtDepth cfg (0 + ((0 : Nat) : Int))
          (getHeightAt perm cfg (wbX + (lx : Int)) (wbZ + (lz : Int))) = BEDROCK := by
        unfold getBlockAtDepth
        rw [if_pos (by simp)]
      rw [hb0, getD_set_self]
      rw [hb2.1]
      unfold BLOCKS_PER_CHUNK CHUNK_SIZE
      omega
    · rw [getD_set_ne _ _ hidx]
      exact hb2.2
  · exact hb2

lemma terrainColumnC_base0_est (cfg : GeneratorConfig) (perm : List Nat)
    (wbX wbZ : Int) {x z : Nat} (hx : x < 16) (hz : z < 16) (b : List Nat)
    (hlen : b.length = BLOCKS_PER_CHUNK) :
    (terrainColumnC cfg perm wbX 0 wbZ b x z).getD (x + 0 * 16 + z * 256) 0 =
      BEDROCK := by
  unfold terrainColumnC
  dsimp only
  refine (foldl_once _
    (fun b2 => b2.length = BLOCKS_PER_CHUNK)
    (fun b2 => b2.getD (x + 0 * 16 + z * 256) 0 = BEDROCK)
    (List.range 16) 0 ?_ ?_ ?_ (List.range 16) (fun y hy => hy)
    (List.mem_range.mpr (by omega)) b hlen).1
  · intro b2 a ha hb2
    dsimp only
    split
    · rw [List.length_set]
      exact hb2
    · exact hb2
  · intro b2 hb2
    dsimp only
    have hb0 : getBlockAtDepth cfg (0 + ((0 : Nat) : Int))
        (getHeightAt perm cfg (wbX + (x : Int)) (wbZ + (z : Int))) = BEDROCK := by
      unfold getBlockAtDepth
      rw [if_pos (by simp)]
    rw [hb0]
    rw [if_pos (by decide)]
    constructor
    · rw [getD_set_self]
      rw [hb2]
      unfold BLOCKS_PER_CHUNK CHUNK_SIZE
      omega
    · rw [List.length_set]
      exact hb2
  · intro b2 a ha hb2 hP
    have ha16 : a < 16 := List.mem_range.mp ha
    split
    · by_cases hidx : x + a * 16 + z * 256 = x + 0 * 16 + z * 256
      · have ha0 : a = 0 := by omega
        subst ha0
        have hb0 : getBlockAtDepth cfg (0 + ((0 : Nat) : Int))
            (getHeightAt perm cfg (wbX + (x : Int)) (wbZ + (z : Int))) = BEDROCK := by
          unfold getBlockAtDepth
          rw [if_pos (by simp)]
        rw [hb0, getD_set_self]
        rw [hb2]
        unfold BLOCKS_PER_CHUNK CHUNK_SIZE
        omega
      · rw [getD_set_ne _ _ hidx]
        exact hP
    · exact hP

lemma terrainFillC_base0_row (cfg : GeneratorConfig) (perm : List Nat)
    (wbX wbZ : Int) (x z : Nat) (hx : x < 16) (hz : z < 16) :
    (terrainFillC cfg perm wbX 0 wbZ).getD (x + 0 * 16 + z * 256) 0 = BEDROCK := by
  unfold terrainFillC
  refine (foldl_once _
    (fun (b2 : List Nat) => b2.length = BLOCKS_PER_CHUNK)
    (fun (b2 : List Nat) => b2.getD (x + 0 * 16 + z * 256) 0 = BEDROCK)
    (List.range 16) x ?_ ?_ ?_ (List.range 16) (fun y hy => hy)
    (List.mem_range.mpr hx) _ (by simp)).1
  · intro b2 a ha hb2
    refine foldl_pres_mem _ (fun (b3 : List Nat) => b3.length = BLOCKS_PER_CHUNK)
      (List.range 16) ?_ (List.range 16) (fun y hy => hy) b2 hb2
    intro b3 a2 ha2 hb3
    exact (terrainColumnC_length cfg perm wbX 0 wbZ b3 a a2).trans hb3
  · intro b2 hb2
    constructor
    · refine (foldl_once _
        (fun (b3 : List Nat) => b3.length = BLOCKS_PER_CHUNK)
        (fun (b3 : List Nat) => b3.getD (x + 0 * 16 + z * 256) 0 = BEDROCK)
        (List.range 16) z ?_ ?_ ?_ (List.range 16) (fun y hy => hy)
        (List.mem_range.mpr hz) b2 hb2).1
      · intro b3 a2 ha2 hb3
        exact (terrainColumnC_length cfg perm wbX 0 wbZ b3 x a2).trans hb3
      · intro b3 hb3
        exact ⟨terrainColumnC_base0_est cfg perm wbX wbZ hx hz b3 hb3,
          (terrainColumnC_length cfg perm wbX 0 wbZ b3 x z).trans hb3⟩
      · intro b3 a2 ha2 hb3 hP
        exact terrainColumnC_base0_pres cfg perm wbX wbZ hx hz x a2 hx
          (List.mem_range.mp ha2) b3 hb3 hP
    · refine foldl_pres_mem _ (fun (b3 : List Nat) => b3.length = BLOCKS_PER_CHUNK)
        (List.range 16) ?_ (List.range 16) (fun y hy => hy) b2 hb2
      intro b3 a2 ha2 hb3
      exact (terrainColumnC_length cfg perm wbX 0 wbZ b3 x a2).trans hb3
  · intro b2 a ha hb2 hP
    refine (foldl_pres_mem _
      (fun (b3 : List Nat) => b3.length = BLOCKS_PER_CHUNK ∧
        b3.getD (x + 0 * 16 + z * 256) 0 = BEDROCK) (List.range 16)
      ?_ (List.range 16) (fun y hy => hy) b2 ⟨hb2, hP⟩).2
    intro b3 a2 ha2 hb3
    exact ⟨(terrainColumnC_length cfg perm wbX 0 wbZ b3 a a2).trans hb3.1,
      terrainColumnC_base0_pres cfg perm wbX wbZ hx hz a a2 (List.mem_range.mp ha)
        (List.mem_range.mp ha2) b3 hb3.1 hb3.2⟩

lemma setBlockB_getD_zero (b : List Nat) (lx ly lz : Int) (bt : Nat)
    (hne : ¬(lx = 0 ∧ ly = 0 ∧ lz = 0)) :
    (setBlockB b lx ly lz bt).getD 0 0 = b.getD 0 0 := by
  unfold setBlockB
  by_cases hg : 0 ≤ lx ∧ lx < 16 ∧ 0 ≤ ly ∧ ly < 16 ∧ 0 ≤ lz ∧ lz < 16
  · rw [if_pos hg]
    apply getD_set_ne
    unfold coordToIndex
    omega
  · rw [if_neg hg]

lemma setBlockB_000_self (b : List Nat) (bt : Nat) (hlen : 0 < b.length) :
    (setBlockB b 0 0 0 bt).getD 0 0 = bt := by
  unfold setBlockB coordToIndex
  rw [if_pos (by norm_num)]
  have h0 : ((0 + 0 * 16 + 0 * 16 * 16 : Int)).toNat = 0 := by norm_num
  rw [h0]
  exact getD_set_self b bt hlen

lemma mem_rangeIncl {a lo hi : Int} (h : a ∈ rangeIncl lo hi) : lo ≤ a ∧ a ≤ hi := by
  unfold rangeIncl at h
  rcases List.mem_map.1 h with ⟨k, hk, hek⟩
  simp at hk
  rcases hk with ⟨m, hm, hmk⟩
  subst hek
  subst hmk
  omega

lemma platColumnC_length (cfg : GeneratorConfig) (wbX wbY wbZ : Int) (b : List Nat)
    (lx lz : Nat) : (platColumnC cfg wbX wbY wbZ b lx lz).length = b.length := by
  unfold platColumnC
  dsimp only
  split
  · refine foldl_pres _ (fun (b2 : List Nat) => b2.length = b.length) ?_ (List.range 16)
      b rfl
    intro b2 a hb2
    dsimp only
    split
    · split <;> rw [setBlockB_length] <;> exact hb2
    · split
      · rw [setBlockB_length]
        exact hb2
      · exact hb2
  · rfl

lemma platColumnC_pres_zero (cfg : GeneratorConfig) (wbY : Int) (b : List Nat)
    (lx lz : Nat) (hne : ¬(lx = 0 ∧ lz = 0)) :
    (platColumnC cfg 0 wbY 0 b lx lz).getD 0 0 = b.getD 0 0 := by
  unfold platColumnC
  dsimp only
  split
  · refine foldl_pres _ (fun (b2 : List Nat) => b2.getD 0 0 = b.getD 0 0) ?_
      (List.range 16) b rfl
    intro b2 a hb2
    dsimp only
    have hsafe : ¬((lx : Int) = 0 ∧ (a : Int) = 0 ∧ (lz : Int) = 0) := by omega
    split
    · split <;> rw [setBlockB_getD_zero _ _ _ _ _ hsafe] <;> exact hb2
    · split
      · rw [setBlockB_getD_zero _ _ _ _ _ hsafe]
        exact hb2
      · exact hb2
  · rfl

lemma platColumnC_00_est (b : List Nat) (hb : b.length = BLOCKS_PER_CHUNK) :
    (platColumnC DEFAULT_CONFIG 0 64 0 b 0 0).getD 0 0 = STONE ∧
    (platColumnC DEFAULT_CONFIG 0 64 0 b 0 0).length = BLOCKS_PER_CHUNK := by
  unfold platColumnC
  dsimp only
  rw [if_pos (by norm_num)]
  refine foldl_once _
    (fun (b2 : List Nat) => b2.length = BLOCKS_PER_CHUNK)
    (fun (b2 : List Nat) => b2.getD 0 0 = STONE)
    (List.range 16) 0 ?_ ?_ ?_ (List.range 16) (fun y hy => hy)
    (List.mem_range.mpr (by norm_num)) b hb
  · intro b2 a ha hb2
    dsimp only
    split
    · split <;> rw [setBlockB_length] <;> exact hb2
    · split
      · rw [setBlockB_length]
        exact hb2
      · exact hb2
  · intro b2 hb2
    dsimp only
    rw [if_pos (by decide), if_pos (by decide), setBlockB_length]
    refine ⟨?_, hb2⟩
    have h0 : 0 < b2.length := by rw [hb2]; norm_num [BLOCKS_PER_CHUNK, CHUNK_SIZE]
    exact setBlockB_000_self b2 STONE h0
  · intro b2 a ha hb2 hP
    dsimp only
    have hsy : DEFAULT_CONFIG.baseHeight = 64 := rfl
    split
    · rename_i h
      rw [hsy] at h
      have ha0 : a = 0 := by omega
      subst ha0
      rw [if_pos (by decide)]
      have h0 : 0 < b2.length := by rw [hb2]; norm_num [BLOCKS_PER_CHUNK, CHUNK_SIZE]
      exact setBlockB_000_self b2 STONE h0
    · split
      · rename_i h h2
        rw [hsy] at h2
        have hsafe : ¬(((0 : Nat) : Int) = 0 ∧ ((a : Nat) : Int) = 0 ∧ ((0 : Nat) : Int) = 0) := by
          omega
        rw [setBlockB_getD_zero _ _ _ _ _ hsafe]
        exact hP
      · exact hP

lemma pillarC_pres_zero (cfg : GeneratorConfig) (wbY : Int) (b : List Nat)
    (pp : Int × Int) (hne : pp.1 ≠ 0) :
    (pillarC cfg 0 wbY 0 b pp).getD 0 0 = b.getD 0 0 := by
  unfold pillarC
  dsimp only
  split
  · have hwood : ∀ (b2 : List Nat), b2.getD 0 0 = b.getD 0 0 →
        ((rangeIncl 1 4).foldl (fun blocks h =>
          if 0 ≤ cfg.baseHeight + h - wbY ∧ cfg.baseHeight + h - wbY < 16 then
            setBlockB blocks (pp.1 - 0) (cfg.baseHeight + h - wbY) (pp.2 - 0) WOOD
          else blocks) b2).getD 0 0 = b.getD 0 0 := by
      intro b2 hb2
      refine foldl_pres _ (fun (b3 : List Nat) => b3.getD 0 0 = b.getD 0 0) ?_
        (rangeIncl 1 4) b2 hb2
      intro b3 h hb3
      dsimp only
      split
      · rw [setBlockB_getD_zero]
        · exact hb3
        · intro hc
          exact hne (by omega)
      · exact hb3
    split
    · rw [setBlockB_getD_zero]
      · exact hwood b rfl
      · intro hc
        exact hne (by omega)
    · exact hwood b rfl
  · rfl

lemma addSpawnPlatformC_040 (b : List Nat) (hb : b.length = BLOCKS_PER_CHUNK) :
    (addSpawnPlatformC DEFAULT_CONFIG 0 64 0 b).getD 0 0 = STONE := by
  unfold addSpawnPlatformC
  dsimp only
  rw [if_pos (by decide)]
  have hrow : ∀ (b2 : List Nat), b2.length = BLOCKS_PER_CHUNK →
      ((List.range 16).foldl (fun blocks (lz : Nat) =>
        platColumnC DEFAULT_CONFIG 0 64 0 blocks 0 lz) b2).getD 0 0 = STONE ∧
      ((List.range 16).foldl (fun blocks (lz : Nat) =>
        platColumnC DEFAULT_CONFIG 0 64 0 blocks 0 lz) b2).length = BLOCKS_PER_CHUNK := by
    intro b2 hb2
    refine foldl_once _
      (fun (b3 : List Nat) => b3.length = BLOCKS_PER_CHUNK)
      (fun (b3 : List Nat) => b3.getD 0 0 = STONE)
      (List.range 16) 0 ?_ ?_ ?_ (List.range 16) (fun y hy => hy)
      (List.mem_range.mpr (by norm_num)) b2 hb2
    · intro b3 a2 ha2 hb3
      rw [platColumnC_length]
      exact hb3
    · intro b3 hb3
      exact platColumnC_00_est b3 hb3
    · intro b3 a2 ha2 hb3 hP
      by_cases h0 : a2 = 0
      · subst h0
        exact (platColumnC_00_est b3 hb3).1
      · rw [platColumnC_pres_zero DEFAULT_CONFIG 64 b3 0 a2 (by omega)]
        exact hP
  have hdisc : ((List.range 16).foldl (fun blocks (lx : Nat) =>
      (List.range 16).foldl (fun blocks (lz : Nat) =>
        platColumnC DEFAULT_CONFIG 0 64 0 blocks lx lz) blocks) b).getD 0 0 = STONE := by
    refine (foldl_once _
      (fun (b2 : List Nat) => b2.length = BLOCKS_PER_CHUNK)
      (fun (b2 : List Nat) => b2.getD 0 0 = STONE)
      (List.range 16) 0 ?_ ?_ ?_ (List.range 16) (fun y hy => hy)
      (List.mem_range.mpr (by norm_num)) b hb).1
    · intro b2 a ha hb2
      refine foldl_pres _ (fun (b3 : List Nat) => b3.length = BLOCKS_PER_CHUNK) ?_
        (List.range 16) b2 hb2
      intro b3 a2 hb3
      rw [platColumnC_length]
      exact hb3
    · intro b2 hb2
      exact hrow b2 hb2
    · intro b2 a ha hb2 hP
      refine (foldl_pres _ (fun (b3 : List Nat) =>
        b3.length = BLOCKS_PER_CHUNK ∧ b3.getD 0 0 = STONE) ?_
        (List.range 16) b2 ⟨hb2, hP⟩).2
      intro b3 a2 hb3
      constructor
      · rw [platColumnC_length]
        exact hb3.1
      · by_cases h0 : a = 0 ∧ a2 = 0
        · have := platColumnC_00_est b3 hb3.1
          rw [h0.1, h0.2]
          exact this.1
        · rw [platColumnC_pres_zero DEFAULT_CONFIG 64 b3 a a2 h0]
          exact hb3.2
  have hpill : (([(-6, -6), (-6, 6), (6, -6), (6, 6)] : List (Int × Int)).foldl
      (fun blocks pp => pillarC DEFAULT_CONFIG 0 64 0 blocks pp)
      ((List.range 16).foldl (fun blocks (lx : Nat) =>
        (List.range 16).foldl (fun blocks (lz : Nat) =>
          platColumnC DEFAULT_CONFIG 0 64 0 blocks lx lz) blocks) b)).getD 0 0 = STONE := by
    refine foldl_pres_mem _ (fun (b2 : List Nat) => b2.getD 0 0 = STONE)
      ([(-6, -6), (-6, 6), (6, -6), (6, 6)] : List (Int × Int)) ?_ _
      (fun y hy => hy) _ hdisc
    intro b2 pp hpp hb2
    rw [pillarC_pres_zero]
    · exact hb2
    · simp at hpp
      rcases hpp with h | h | h | h <;> subst h <;> decide
  refine foldl_pres_mem _ (fun (b2 : List Nat) => b2.getD 0 0 = STONE)
    (rangeIncl 1 8) ?_ _ (fun y hy => hy) _ hpill
  intro b2 h hh hb2
  have hb := mem_rangeIncl hh
  split
  · rw [setBlockB_getD_zero]
    · exact hb2
    · have hsy : DEFAULT_CONFIG.baseHeight = 64 := rfl
      rw [hsy]
      omega
  · exact hb2

lemma terrainFillC_length (cfg : GeneratorConfig) (perm : List Nat)
    (wbX wbY wbZ : Int) :
    (terrainFillC cfg perm wbX wbY wbZ).length = BLOCKS_PER_CHUNK := by
  unfold terrainFillC
  refine foldl_pres _ (fun (b2 : List Nat) => b2.length = BLOCKS_PER_CHUNK) ?_
    (List.range 16) _ (List.length_replicate _ _)
  intro b2 a hb2
  refine foldl_pres _ (fun (b3 : List Nat) => b3.length = BLOCKS_PER_CHUNK) ?_
    (List.range 16) b2 hb2
  intro b3 a2 hb3
  exact (terrainColumnC_length cfg perm wbX wbY wbZ b3 a a2).trans hb3

lemma treePointC_040_pres (cfg : GeneratorConfig) (perm treePerm : List Nat)
    (rand : Int → Int → Q) (b : List Nat) (lx lz : Int)
    (hlx : 2 ≤ lx) (hlz : 2 ≤ lz) :
    (treePointC cfg perm treePerm rand 0 64 0 b lx lz).getD 0 0 = b.getD 0 0 := by
  unfold treePointC
  dsimp only
  split
  · rfl
  · rename_i hsp
    have hbig : 11 ≤ lx ∨ 11 ≤ lz := by
      simp only [zero_add, abs_le] at hsp
      omega
    split
    · rfl
    · split
      · rfl
      · split
        · rfl
        · refine foldl_pres _
            (fun (b2 : List Nat) => b2.getD 0 0 = b.getD 0 0) ?_ (List.range 3) _ ?_
          · intro b2 dy hb2
            refine foldl_pres_mem _
              (fun (b3 : List Nat) => b3.getD 0 0 = b.getD 0 0)
              (rangeIncl (-2) 2) ?_ _ (fun y hy => hy) b2 hb2
            intro b3 dx hdx hb3
            refine foldl_pres_mem _
              (fun (b4 : List Nat) => b4.getD 0 0 = b.getD 0 0)
              (rangeIncl (-2) 2) ?_ _ (fun y hy => hy) b3 hb3
            intro b4 dz hdz hb4
            have hdx2 := mem_rangeIncl hdx
            have hdz2 := mem_rangeIncl hdz
            split
            · exact hb4
            · split
              · exact hb4
              · split
                · split
                  · rw [setBlockB_getD_zero]
                    · exact hb4
                    · intro hc
                      rcases hbig with h | h <;> omega
                  · exact hb4
                · exact hb4
          · refine foldl_pres _
              (fun (b2 : List Nat) => b2.getD 0 0 = b.getD 0 0) ?_ _ b rfl
            intro b2 i hb2
            dsimp only
            split
            · rw [setBlockB_getD_zero]
              · exact hb2
              · intro hc
                omega
            · exact hb2

lemma vegPointC_040_pres (cfg : GeneratorConfig) (perm vegPerm : List Nat)
    (b : List Nat) (lx lz : Nat) :
    (vegPointC cfg perm vegPerm 0 64 0 b lx lz).getD 0 0 = b.getD 0 0 := by
  unfold vegPointC
  dsimp only
  split
  · rfl
  · rename_i hsp
    have hbig : 11 ≤ (lx : Int) ∨ 11 ≤ (lz : Int) := by
      simp only [zero_add, abs_le] at hsp
      omega
    split
    · rfl
    · split
      · rfl
      · split
        · rw [setBlockB_getD_zero]
          · intro hc
            rcases hbig with h | h <;> omega
        · split
          · rw [setBlockB_getD_zero]
            · intro hc
              rcases hbig with h | h <;> omega
          · rfl

lemma addTreesC_040_pres (cfg : GeneratorConfig) (perm treePerm : List Nat)
    (rand : Int → Int → Q) (b : List Nat) :
    (addTreesC cfg perm treePerm rand 0 64 0 b).getD 0 0 = b.getD 0 0 := by
  unfold addTreesC
  refine foldl_pres_mem _ (fun (b2 : List Nat) => b2.getD 0 0 = b.getD 0 0)
    ([2, 7, 12] : List Int) ?_ _ (fun y hy => hy) b rfl
  intro b2 lx hlx hb2
  have hlx2 : 2 ≤ lx := by
    simp at hlx
    rcases hlx with h | h | h <;> omega
  refine foldl_pres_mem _ (fun (b3 : List Nat) => b3.getD 0 0 = b.getD 0 0)
    ([2, 7, 12] : List Int) ?_ _ (fun y hy => hy) b2 hb2
  intro b3 lz hlz hb3
  have hlz2 : 2 ≤ lz := by
    simp at hlz
    rcases hlz with h | h | h <;> omega
  rw [treePointC_040_pres cfg perm treePerm rand b3 lx lz hlx2 hlz2]
  exact hb3

lemma addVegetationC_040_pres (cfg : GeneratorConfig) (perm vegPerm : List Nat)
    (b : List Nat) :
    (addVegetationC cfg perm vegPerm 0 64 0 b).getD 0 0 = b.getD 0 0 := by
  unfold addVegetationC
  refine foldl_pres _ (fun (b2 : List Nat) => b2.getD 0 0 = b.getD 0 0) ?_
    (List.range 16) b rfl
  intro b2 lx hb2
  refine foldl_pres _ (fun (b3 : List Nat) => b3.getD 0 0 = b.getD 0 0) ?_
    (List.range 16) b2 hb2
  intro b3 lz hb3
  rw [vegPointC_040_pres cfg perm vegPerm b3 lx lz]
  exact hb3

lemma generateChunkC_040 (rand : Int → Int → Q) :
    (generateChunkC rand DEFAULT_CONFIG 0 4 0).getD 0 0 = STONE := by
  unfold generateChunkC
  dsimp only
  rw [if_pos (by decide)]
  have h416 : (4 : Int) * 16 = 64 := by norm_num
  simp only [zero_mul, h416]
  rw [addVegetationC_040_pres, addTreesC_040_pres, addSpawnPlatformC_040]
  exact terrainFillC_length DEFAULT_CONFIG (permTable DEFAULT_CONFIG.seed) 0 64 0

/-- C8: the claim asks for bedrock at local (x,0,z) of chunk (0,4,0), but that
chunk covers world Y in [64, 80): its local (0,0,0) is world (0,64,0), the
spawn-platform center, which `generateChunk` fills with STONE, not BEDROCK
(regardless of the tree-height random oracle). -/
theorem c8_counterexample :
    (generateChunkC (fun _ _ => ⟨0, 1⟩) DEFAULT_CONFIG 0 4 0).getD 0 0 = STONE ∧
    STONE ≠ BEDROCK :=
  ⟨generateChunkC_040 (fun _ _ => ⟨0, 1⟩), by decide⟩

/-- C8 (amended): the depth rule assigns bedrock at world Y = 0, which lies in
chunk (0,0,0), not (0,4,0): for every tree-height oracle `rand` and all local
x,z in [0,16), generating chunk (0,0,0) with the default seed-42 config yields
BEDROCK at local (x,0,z). -/
theorem c8_bedrock_floor (rand : Int → Int → Q) (x z : Nat)
    (hx : x < 16) (hz : z < 16) :
    (generateChunkC rand DEFAULT_CONFIG 0 0 0).getD (x + 0 * 16 + z * 256) 0 =
      BEDROCK := by
  rw [generateChunkC_000]
  exact terrainFillC_base0_row DEFAULT_CONFIG (permTable DEFAULT_CONFIG.seed) 0 0 x z
    hx hz

/-- Witness for `c8_bedrock_floor` at a concrete oracle and position. -/
theorem c8_bedrock_floor_witness :
    (generateChunkC (fun _ _ => ⟨0, 1⟩) DEFAULT_CONFIG 0 0 0).getD
      (3 + 0 * 16 + 5 * 256) 0 = BEDROCK :=
  c8_bedrock_floor (fun _ _ => ⟨0, 1⟩) 3 5 (by decide) (by decide)

/-! Dirty-flag tracking (`getDirtyChunks` / `markAllClean`). -/

lemma filter_dirty_nil :
    ∀ (l : List (ChunkCoord × Chunk)), (∀ p ∈ l, p.2.dirty = false) →
      (l.map Prod.snd).filter (fun c => c.dirty) = [] := by
  intro l
  induction l with
  | nil => intro _; rfl
  | cons p t ih =>
    intro hc
    simp only [List.map_cons, List.filter_cons]
    rw [hc p (List.mem_cons_self _ _)]
    exact ih (fun q hq => hc q (List.mem_cons_of_mem _ hq))

lemma lookup_none_key {β : Type} {k : ChunkCoord} :
    ∀ {l : List (ChunkCoord × β)}, l.lookup k = none → ∀ p ∈ l, p.1 ≠ k := by
  intro l
  induction l with
  | nil => intro _ p hp; cases hp
  | cons q t ih =>
    intro h p hp
    obtain ⟨a, b⟩ := q
    rw [List.lookup_cons] at h
    rcases hk : (k == a) with _ | _
    · rw [hk] at h
      rcases List.mem_cons.1 hp with hp2 | hp2
      · subst hp2
        intro hak
        subst hak
        simp at hk
      · exact ih h p hp2
    · rw [hk] at h
      cases h

lemma map_replace_id (cc : ChunkCoord) (nch : Chunk) :
    ∀ (t : List (ChunkCoord × Chunk)), (∀ p ∈ t, p.1 ≠ cc) →
      t.map (fun p => if p.1 = cc then (cc, nch) else p) = t := by
  intro t
  induction t with
  | nil => intro _; rfl
  | cons p r ih =>
    intro hk
    simp only [List.map_cons]
    rw [if_neg (hk p (List.mem_cons_self _ _)), ih (fun q hq => hk q (List.mem_cons_of_mem _ hq))]

lemma drain_replace (cc : ChunkCoord) (nch : Chunk) (hd : nch.dirty = true) :
    ∀ (l : List (ChunkCoord × Chunk)), (∀ p ∈ l, p.2.dirty = false) →
      (l.map Prod.fst).Nodup → (∃ v, l.lookup cc = some v) →
      ((l.map (fun p => if p.1 = cc then (cc, nch) else p)).map Prod.snd).filter
        (fun c => c.dirty) = [nch] := by
  intro l
  induction l with
  | nil =>
    intro _ _ hex
    rcases hex with ⟨v, hv⟩
    simp [List.lookup] at hv
  | cons p t ih =>
    intro hclean hnd hex
    obtain ⟨a, b⟩ := p
    by_cases hak : a = cc
    · subst hak
      simp only [List.map_cons, if_pos rfl, List.filter_cons, hd]
      have htk : ∀ q ∈ t, q.1 ≠ a := by
        intro q hq hqa
        simp only [List.map_cons, List.nodup_cons] at hnd
        exact hnd.1 (hqa ▸ List.mem_map_of_mem Prod.fst hq)
      rw [map_replace_id a nch t htk,
        filter_dirty_nil t (fun q hq => hclean q (List.mem_cons_of_mem _ hq))]
      simp [hd]
    · have hb : b.dirty = false := hclean (a, b) (List.mem_cons_self _ _)
      simp only [List.map_cons, if_neg hak, List.filter_cons, hb]
      simp only [Bool.false_eq_true, if_false]
      refine ih (fun q hq => hclean q (List.mem_cons_of_mem _ hq))
        (by simp only [List.map_cons, List.nodup_cons] at hnd; exact hnd.2) ?_
      rcases hex with ⟨v, hv⟩
      rw [List.lookup_cons] at hv
      rcases hk : (cc == a) with _ | _
      · rw [hk] at hv
        exact ⟨v, hv⟩
      · have : cc = a := by simpa using hk
        exact absurd this.symm hak

lemma setBlock_local_dirty (c : Chunk) (x y z : Int) (b : Nat) :
    (setBlock c (worldToLocal x y z).x (worldToLocal x y z).y
      (worldToLocal x y z).z b).dirty = true := by
  unfold setBlock worldToLocal
  have hx := localAxis_bounds x
  have hy := localAxis_bounds y
  have hz := localAxis_bounds z
  rw [if_neg (by dsimp only; omega)]

lemma getDirtyChunks_markAllClean (w : World) :
    (w.markAllClean).getDirtyChunks = [] := by
  unfold World.markAllClean World.getDirtyChunks
  apply filter_dirty_nil
  intro p hp
  rcases List.mem_map.1 hp with ⟨q, hq, hqe⟩
  rw [← hqe]

lemma writeBlock_drain (w : World) (x y z : Int) (b : Nat)
    (hclean : ∀ p ∈ w.chunks, p.2.dirty = false)
    (hnd : (w.chunks.map Prod.fst).Nodup) :
    (w.writeBlock x y z b).getDirtyChunks =
      [setBlock (w.chunkVal (worldToChunk x y z)) (worldToLocal x y z).x
        (worldToLocal x y z).y (worldToLocal x y z).z b] := by
  unfold World.writeBlock World.getChunk World.updateChunk World.getDirtyChunks
    World.chunkVal
  rcases h : w.chunks.lookup (worldToChunk x y z) with _ | v
  · simp only [h, Option.getD_none]
    rw [List.map_append, List.map_append, List.filter_append]
    have hkeys := lookup_none_key h
    rw [map_replace_id _ _ w.chunks hkeys, filter_dirty_nil w.chunks hclean]
    simp only [List.map_cons, List.map_nil, if_pos rfl, List.nil_append,
      List.filter_cons, List.filter_nil]
    simp [setBlock_local_dirty]
  · simp only [h, Option.getD_some]
    exact drain_replace _ _ (setBlock_local_dirty _ x y z b) w.chunks hclean hnd ⟨v, h⟩

lemma getBlockAt_snd_clean (w : World) (x y z : Int)
    (hclean : ∀ p ∈ w.chunks, p.2.dirty = false)
    (hgen : ∀ c, (w.gen c).dirty = false) :
    ∀ p ∈ ((w.getBlockAt x y z).2).chunks, p.2.dirty = false := by
  unfold World.getBlockAt World.getChunk
  rcases h : w.chunks.lookup (worldToChunk x y z) with _ | v
  · simp only [h]
    intro p hp
    rcases List.mem_append.1 hp with hp | hp
    · exact hclean p hp
    · rcases List.mem_singleton.1 hp with rfl
      exact hgen _
  · simp only [h]
    exact fun p hp => hclean p hp

lemma getBlockAt_snd_nodup (w : World) (x y z : Int)
    (hnd : (w.chunks.map Prod.fst).Nodup) :
    ((((w.getBlockAt x y z).2).chunks).map Prod.fst).Nodup := by
  unfold World.getBlockAt World.getChunk
  rcases h : w.chunks.lookup (worldToChunk x y z) with _ | v
  · simp only [h]
    rw [List.map_append]
    refine List.Nodup.append hnd (by simp) ?_
    intro k hk1 hk2
    simp only [List.map_cons, List.map_nil, List.mem_singleton] at hk2
    subst hk2
    rcases List.mem_map.1 hk1 with ⟨q, hq, hqe⟩
    exact lookup_none_key h q hq hqe
  · simp only [h]
    exact hnd

/-- C5: dirty-chunk tracking.  Over any all-clean world with a clean generator
and duplicate-free cache keys: (1) the drain is empty; (2) a read
(`getBlockAt`) keeps it empty — freshly generated or merely read chunks never
appear; (3) a successful `setBlockAt` makes the drain exactly the one mutated
chunk, once; (4) a failed `setBlockAt` (no mutation) keeps the drain empty;
(5) after `markAllClean` (the drain's second half) the drain is empty again
until re-mutation; (6) `generateChunk` itself emits clean chunks. -/
theorem c5_dirty_tracking (w : World) (x y z : Int) (b : Nat)
    (hclean : ∀ p ∈ w.chunks, p.2.dirty = false)
    (hgen : ∀ c, (w.gen c).dirty = false)
    (hnd : (w.chunks.map Prod.fst).Nodup) :
    w.getDirtyChunks = [] ∧
    ((w.getBlockAt x y z).2).getDirtyChunks = [] ∧
    ((w.setBlockAt x y z b).1 = true →
      ((w.setBlockAt x y z b).2).getDirtyChunks =
        [setBlock (w.chunkVal (worldToChunk x y z)) (worldToLocal x y z).x
          (worldToLocal x y z).y (worldToLocal x y z).z b]) ∧
    ((w.setBlockAt x y z b).1 = false →
      ((w.setBlockAt x y z b).2).getDirtyChunks = []) ∧
    (((w.setBlockAt x y z b).2).markAllClean).getDirtyChunks = [] ∧
    (∀ (cfg : GeneratorConfig) (rng : Nat → Q) (c : ChunkCoord),
      (generateChunkG cfg rng c).dirty = false) := by
  refine ⟨?_, ?_, ?_, ?_, getDirtyChunks_markAllClean _, fun cfg rng c => rfl⟩
  · unfold World.getDirtyChunks
    exact filter_dirty_nil w.chunks hclean
  · unfold World.getDirtyChunks
    exact filter_dirty_nil _ (getBlockAt_snd_clean w x y z hclean hgen)
  · intro hs
    unfold World.setBlockAt at hs ⊢
    by_cases hB : b = AIR
    · rw [if_pos hB] at hs ⊢
      dsimp only at hs ⊢
      by_cases hbed : (w.getBlockAt x y z).1 = BEDROCK
      · rw [if_pos hbed] at hs
        exact absurd hs (by simp)
      · rw [if_neg hbed]
        dsimp only
        rw [writeBlock_drain _ x y z b
          (getBlockAt_snd_clean w x y z hclean hgen)
          (getBlockAt_snd_nodup w x y z hnd), getBlockAt_snd_chunkVal]
    · rw [if_neg hB]
      dsimp only
      rw [writeBlock_drain w x y z b hclean hnd]
  · intro hs
    unfold World.setBlockAt at hs ⊢
    by_cases hB : b = AIR
    · rw [if_pos hB] at hs ⊢
      dsimp only at hs ⊢
      by_cases hbed : (w.getBlockAt x y z).1 = BEDROCK
      · rw [if_pos hbed]
        dsimp only
        unfold World.getDirtyChunks
        exact filter_dirty_nil _ (getBlockAt_snd_clean w x y z hclean hgen)
      · rw [if_neg hbed] at hs
        exact absurd hs (by simp)
    · rw [if_neg hB] at hs
      exact absurd hs (by simp)

/-- Witness for `c5_dirty_tracking`: the empty cache over the air generator,
writing STONE at (0,5,0). -/
theorem c5_dirty_tracking_witness :
    wAir.getDirtyChunks = [] ∧
    ((wAir.getBlockAt 0 5 0).2).getDirtyChunks = [] ∧
    ((wAir.setBlockAt 0 5 0 STONE).1 = true →
      ((wAir.setBlockAt 0 5 0 STONE).2).getDirtyChunks =
        [setBlock (wAir.chunkVal (worldToChunk 0 5 0)) (worldToLocal 0 5 0).x
          (worldToLocal 0 5 0).y (worldToLocal 0 5 0).z STONE]) ∧
    ((wAir.setBlockAt 0 5 0 STONE).1 = false →
      ((wAir.setBlockAt 0 5 0 STONE).2).getDirtyChunks = []) ∧
    (((wAir.setBlockAt 0 5 0 STONE).2).markAllClean).getDirtyChunks = [] ∧
    (∀ (cfg : GeneratorConfig) (rng : Nat → Q) (c : ChunkCoord),
      (generateChunkG cfg rng c).dirty = false) :=
  c5_dirty_tracking wAir 0 5 0 STONE (fun p hp => by simp [wAir] at hp)
    (fun c => rfl) (by simp [wAir])

set_option maxRecDepth 100000 in
/-- C1: `placeTree` in part_006 derives the trunk height from `Math.random()`
(modeled by the oracle argument `r`): two draws of the unseeded source yield
different chunk buffers — height 4 leaves local (2,8,2) as air, height 5
writes wood there — so generation is not a function of seed and coordinates
alone. -/
theorem c1_trunk_height_random :
    getBlock (placeTree (createChunk ⟨0, 0, 0⟩) 2 4 2 ⟨0, 1⟩) 2 8 2 = AIR ∧
    getBlock (placeTree (createChunk ⟨0, 0, 0⟩) 2 4 2 ⟨1, 2⟩) 2 8 2 = WOOD ∧
    placeTree (createChunk ⟨0, 0, 0⟩) 2 4 2 ⟨0, 1⟩ ≠
      placeTree (createChunk ⟨0, 0, 0⟩) 2 4 2 ⟨1, 2⟩ := by
  have h1 : getBlock (placeTree (createChunk ⟨0, 0, 0⟩) 2 4 2 ⟨0, 1⟩) 2 8 2 = AIR := by
    decide
  have h2 : getBlock (placeTree (createChunk ⟨0, 0, 0⟩) 2 4 2 ⟨1, 2⟩) 2 8 2 = WOOD := by
    decide
  refine ⟨h1, h2, ?_⟩
  intro h
  rw [h, h2] at h1
  exact absurd h1 (by decide)

/-! Batch endpoints of `convex/http.ts` (`batch_place`, `batch_break`). -/

/-- One entry of a `batch_place` request's `blocks` array. -/
structure BItem where
  x : Int
  y : Int
  z : Int
  blockType : Nat
deriving DecidableEq, Repr

/-- `chunkBlocks.get(key)!.push(...)` on a JavaScript insertion-ordered `Map`:
append to the group of the first matching key, or open a new group at the
end. -/
def insertGrouped {γ : Type} : List (ChunkCoord × List γ) → ChunkCoord → γ →
    List (ChunkCoord × List γ)
  | [], cc, b => [(cc, [b])]
  | p :: t, cc, b =>
    if p.1 = cc then (p.1, p.2 ++ [b]) :: t else p :: insertGrouped t cc b

/-- The grouping loops of `batch_place`/`batch_break`: items keyed by owning
chunk (`Math.floor(v / CHUNK_SIZE)` per axis), in insertion order. -/
def groupByChunk {γ : Type} (key : γ → ChunkCoord) (items : List γ) :
    List (ChunkCoord × List γ) :=
  items.foldl (fun acc b => insertGrouped acc (key b) b) []

/-- Owning chunk of a `batch_place` item. -/
def bitemChunk (b : BItem) : ChunkCoord := worldToChunk b.x b.y b.z

/-- The inner `batch_place` loop over one chunk's buffer: skip (and count)
solid targets, write (and count) the rest. -/
def placeInChunk (blocks : List Nat) (bs : List BItem) : List Nat × Nat × Nat :=
  bs.foldl (fun (st : List Nat × Nat × Nat) b =>
    let l := worldToLocal b.x b.y b.z
    let cur := httpGetBlockAt st.1 l.x l.y l.z
    if isSolidId cur then (st.1, st.2.1, st.2.2 + 1)
    else (httpSetBlockAt st.1 l.x l.y l.z b.blockType, st.2.1 + 1, st.2.2))
    (blocks, 0, 0)

inductive BatchPlaceRes
  | tooMany
  | invalidType (t : Nat)
  | ok (placed skipped chunkCount : Nat)
deriving DecidableEq, Repr

/-- Embeds the `batch_place` action: cap of 100, whole-batch rejection at the
first non-buildable block type, then per-chunk load / per-item place-or-skip /
save, reporting placed and skipped counts. -/
def batchPlace (gen : ChunkCoord → List Nat) (db : ChunkDB) (items : List BItem) :
    BatchPlaceRes × ChunkDB :=
  if 100 < items.length then (.tooMany, db)
  else
    match items.find? (fun b => !isBuildable b.blockType) with
    | some b => (.invalidType b.blockType, db)
    | none =>
      let groups := groupByChunk bitemChunk items
      let st := groups.foldl (fun (st : Nat × Nat × ChunkDB) g =>
        let r := dbGetOrGenerate gen st.2.2 g.1
        let pr := placeInChunk r.1 g.2
        (st.1 + pr.2.1, st.2.1 + pr.2.2, dbSave r.2 g.1 pr.1)) (0, 0, db)
      (.ok st.1 st.2.1 groups.length, st.2.2)

/-- Owning chunk of a `batch_break` position. -/
def posChunk (p : Vec3i) : ChunkCoord := worldToChunk p.x p.y p.z

/-- The inner `batch_break` loop over one chunk's buffer: break (and count)
anything that is neither air nor bedrock; everything else is passed over
without being counted anywhere. -/
def breakInChunk (blocks : List Nat) (ps : List Vec3i) : List Nat × Nat :=
  ps.foldl (fun (st : List Nat × Nat) p =>
    let l := worldToLocal p.x p.y p.z
    let cur := httpGetBlockAt st.1 l.x l.y l.z
    if cur ≠ ((AIR : Nat) : Int) ∧ cur ≠ ((BEDROCK : Nat) : Int) then
      (httpSetBlockAt st.1 l.x l.y l.z AIR, st.2 + 1)
    else st) (blocks, 0)

inductive BatchBreakRes
  | tooMany
  | ok (broken chunkCount : Nat)
deriving DecidableEq, Repr

/-- Embeds the `batch_break` action: cap of 100, then per-chunk load / break /
save, reporting only the broken count (air and bedrock targets are skipped
silently, with no skip count in the response). -/
def batchBreak (gen : ChunkCoord → List Nat) (db : ChunkDB) (positions : List Vec3i) :
    BatchBreakRes × ChunkDB :=
  if 100 < positions.length then (.tooMany, db)
  else
    let groups := groupByChunk posChunk positions
    let st := groups.foldl (fun (st : Nat × ChunkDB) g =>
      let r := dbGetOrGenerate gen st.2 g.1
      let br := breakInChunk r.1 g.2
      (st.1 + br.2, dbSave r.2 g.1 br.1)) (0, db)
    (.ok st.1 groups.length, st.2)

lemma insertGrouped_sum {γ : Type} (cc : ChunkCoord) (b : γ) :
    ∀ (l : List (ChunkCoord × List γ)),
      ((insertGrouped l cc b).map (fun g => g.2.length)).sum =
        (l.map (fun g => g.2.length)).sum + 1 := by
  intro l
  induction l with
  | nil => simp [insertGrouped]
  | cons p t ih =>
    unfold insertGrouped
    split
    · simp only [List.map_cons, List.sum_cons, List.length_append]
      simp
      omega
    · simp only [List.map_cons, List.sum_cons, ih]
      omega

lemma groupByChunk_sum {γ : Type} (key : γ → ChunkCoord) :
    ∀ (items : List γ) (acc : List (ChunkCoord × List γ)),
      ((items.foldl (fun acc b => insertGrouped acc (key b) b) acc).map
        (fun g => g.2.length)).sum =
        (acc.map (fun g => g.2.length)).sum + items.length := by
  intro items
  induction items with
  | nil => intro acc; simp
  | cons b t ih =>
    intro acc
    rw [List.foldl_cons, ih, insertGrouped_sum]
    simp
    omega

lemma placeInChunk_count (blocks : List Nat) (bs : List BItem) :
    (placeInChunk blocks bs).2.1 + (placeInChunk blocks bs).2.2 = bs.length := by
  unfold placeInChunk
  have h : ∀ (l : List BItem) (st : List Nat × Nat × Nat),
      ((l.foldl (fun (st : List Nat × Nat × Nat) b =>
        let lc := worldToLocal b.x b.y b.z
        let cur := httpGetBlockAt st.1 lc.x lc.y lc.z
        if isSolidId cur then (st.1, st.2.1, st.2.2 + 1)
        else (httpSetBlockAt st.1 lc.x lc.y lc.z b.blockType, st.2.1 + 1, st.2.2)) st).2.1 +
       (l.foldl (fun (st : List Nat × Nat × Nat) b =>
        let lc := worldToLocal b.x b.y b.z
        let cur := httpGetBlockAt st.1 lc.x lc.y lc.z
        if isSolidId cur then (st.1, st.2.1, st.2.2 + 1)
        else (httpSetBlockAt st.1 lc.x lc.y lc.z b.blockType, st.2.1 + 1, st.2.2)) st).2.2) =
      st.2.1 + st.2.2 + l.length := by
    intro l
    induction l with
    | nil => intro st; simp
    | cons b t ih =>
      intro st
      rw [List.foldl_cons]
      dsimp only
      split
      · rw [ih]
        simp
        omega
      · rw [ih]
        simp
        omega
  rw [h bs (blocks, 0, 0)]
  simp

lemma breakInChunk_count (blocks : List Nat) (ps : List Vec3i) :
    (breakInChunk blocks ps).2 ≤ ps.length := by
  unfold breakInChunk
  have h : ∀ (l : List Vec3i) (st : List Nat × Nat),
      (l.foldl (fun (st : List Nat × Nat) p =>
        let lc := worldToLocal p.x p.y p.z
        let cur := httpGetBlockAt st.1 lc.x lc.y lc.z
        if cur ≠ ((AIR : Nat) : Int) ∧ cur ≠ ((BEDROCK : Nat) : Int) then
          (httpSetBlockAt st.1 lc.x lc.y lc.z AIR, st.2 + 1)
        else st) st).2 ≤ st.2 + l.length := by
    intro l
    induction l with
    | nil => intro st; simp
    | cons p t ih =>
      intro st
      rw [List.foldl_cons]
      dsimp only
      split
      · exact le_trans (ih _) (by simp only [List.length_cons]; omega)
      · exact le_trans (ih _) (by simp only [List.length_cons]; omega)
  exact le_trans (h ps (blocks, 0)) (by simp)

lemma batchPlace_fold_count (gen : ChunkCoord → List Nat) :
    ∀ (groups : List (ChunkCoord × List BItem)) (st : Nat × Nat × ChunkDB),
      ((groups.foldl (fun (st : Nat × Nat × ChunkDB) g =>
        let r := dbGetOrGenerate gen st.2.2 g.1
        let pr := placeInChunk r.1 g.2
        (st.1 + pr.2.1, st.2.1 + pr.2.2, dbSave r.2 g.1 pr.1)) st).1 +
       (groups.foldl (fun (st : Nat × Nat × ChunkDB) g =>
        let r := dbGetOrGenerate gen st.2.2 g.1
        let pr := placeInChunk r.1 g.2
        (st.1 + pr.2.1, st.2.1 + pr.2.2, dbSave r.2 g.1 pr.1)) st).2.1) =
      st.1 + st.2.1 + (groups.map (fun g => g.2.length)).sum := by
  intro groups
  induction groups with
  | nil => intro st; simp
  | cons g t ih =>
    intro st
    rw [List.foldl_cons]
    dsimp only
    rw [ih]
    have hc := placeInChunk_count (dbGetOrGenerate gen st.2.2 g.1).1 g.2
    simp only [List.map_cons, List.sum_cons]
    omega

lemma batchBreak_fold_bound (gen : ChunkCoord → List Nat) :
    ∀ (groups : List (ChunkCoord × List Vec3i)) (st : Nat × ChunkDB),
      (groups.foldl (fun (st : Nat × ChunkDB) g =>
        let r := dbGetOrGenerate gen st.2 g.1
        let br := breakInChunk r.1 g.2
        (st.1 + br.2, dbSave r.2 g.1 br.1)) st).1 ≤
      st.1 + (groups.map (fun g => g.2.length)).sum := by
  intro groups
  induction groups with
  | nil => intro st; simp
  | cons g t ih =>
    intro st
    rw [List.foldl_cons]
    dsimp only
    refine le_trans (ih _) ?_
    have hc := breakInChunk_count (dbGetOrGenerate gen st.2 g.1).1 g.2
    simp only [List.map_cons, List.sum_cons]
    omega

/-- Occupied target for the C6 scenario: STONE already stored at (1,5,1). -/
def c6db : ChunkDB :=
  [(worldToChunk 1 5 1, httpSetBlockAt (List.replicate BLOCKS_PER_CHUNK AIR) 1 5 1 STONE)]

/-- The C6 scenario batch: three air targets plus the occupied (1,5,1). -/
def c6items : List BItem :=
  [⟨0, 5, 0, STONE⟩, ⟨2, 5, 2, STONE⟩, ⟨3, 5, 3, STONE⟩, ⟨1, 5, 1, STONE⟩]

/-- C6 counterexample: one non-buildable item (bedrock) makes `batch_place`
reject the whole batch with an `Invalid block type` error — the valid first
item is not placed and no per-item counts are reported, refuting
"rather than failing the whole batch because one item is rejected". -/
theorem c6_counterexample :
    (batchPlace airBufGen [] [⟨0, 5, 0, STONE⟩, ⟨1, 5, 1, BEDROCK⟩]).1 =
      .invalidType BEDROCK ∧
    (batchPlace airBufGen [] [⟨0, 5, 0, STONE⟩, ⟨1, 5, 1, BEDROCK⟩]).2 = [] ∧
    ∀ placed skipped n,
      (batchPlace airBufGen [] [⟨0, 5, 0, STONE⟩, ⟨1, 5, 1, BEDROCK⟩]).1 ≠
        .ok placed skipped n := by
  have h0 : (batchPlace airBufGen [] [⟨0, 5, 0, STONE⟩, ⟨1, 5, 1, BEDROCK⟩]).1 =
      .invalidType BEDROCK := by decide
  refine ⟨h0, by decide, ?_⟩
  intro placed skipped n h
  rw [h0] at h
  exact BatchPlaceRes.noConfusion h

set_option maxRecDepth 100000 in
/-- C6 (amended): both batch endpoints cap requests at 100 items.  Within the
cap, `batch_place` rejects the whole batch at the first non-buildable block
type; when every type is buildable it reports per-item placed/skipped counts
that always sum to the batch size (occupied solid targets are skipped, never
fatal), and the 3-valid-plus-1-occupied scenario reports 3 placed, 1 skipped.
`batch_break` never rejects per item and reports only a broken count (at most
the batch size), with no skip count. -/
theorem c6_batch_semantics (gen : ChunkCoord → List Nat) (db : ChunkDB)
    (items : List BItem) (positions : List Vec3i) :
    (100 < items.length → batchPlace gen db items = (.tooMany, db)) ∧
    (items.length ≤ 100 →
      ∀ b, items.find? (fun i => !isBuildable i.blockType) = some b →
        batchPlace gen db items = (.invalidType b.blockType, db)) ∧
    (items.length ≤ 100 →
      items.find? (fun i => !isBuildable i.blockType) = none →
      ∃ placed skipped,
        (batchPlace gen db items).1 =
          .ok placed skipped (groupByChunk bitemChunk items).length ∧
        placed + skipped = items.length) ∧
    (100 < positions.length → batchBreak gen db positions = (.tooMany, db)) ∧
    (positions.length ≤ 100 →
      ∃ broken,
        (batchBreak gen db positions).1 =
          .ok broken (groupByChunk posChunk positions).length ∧
        broken ≤ positions.length) ∧
    (batchPlace airBufGen c6db c6items).1 = .ok 3 1 1 := by
  refine ⟨?_, ?_, ?_, ?_, ?_, by decide⟩
  · intro h
    unfold batchPlace
    rw [if_pos h]
  · intro hc b hb
    unfold batchPlace
    rw [if_neg (by omega)]
    simp only [hb]
  · intro hc hf
    unfold batchPlace
    rw [if_neg (by omega)]
    simp only [hf]
    refine ⟨_, _, rfl, ?_⟩
    rw [batchPlace_fold_count gen (groupByChunk bitemChunk items) (0, 0, db)]
    unfold groupByChunk
    rw [groupByChunk_sum bitemChunk items []]
    simp
  · intro h
    unfold batchBreak
    rw [if_pos h]
  · intro hc
    unfold batchBreak
    rw [if_neg (by omega)]
    refine ⟨_, rfl, ?_⟩
    refine le_trans (batchBreak_fold_bound gen (groupByChunk posChunk positions) (0, db)) ?_
    unfold groupByChunk
    rw [groupByChunk_sum posChunk positions []]
    simp

/-- Witness for `c6_batch_semantics`: an oversized batch is rejected and a
single valid item is placed with counts summing to 1. -/
theorem c6_batch_semantics_witness :
    batchPlace airBufGen [] (List.replicate 101 ⟨0, 5, 0, STONE⟩) = (.tooMany, []) ∧
    (∃ placed skipped,
      (batchPlace airBufGen [] [⟨0, 5, 0, STONE⟩]).1 =
        .ok placed skipped (groupByChunk bitemChunk [⟨0, 5, 0, STONE⟩]).length ∧
      placed + skipped = ([⟨0, 5, 0, STONE⟩] : List BItem).length) :=
  ⟨(c6_batch_semantics airBufGen [] (List.replicate 101 ⟨0, 5, 0, STONE⟩) []).1
      (by decide),
    (c6_batch_semantics airBufGen [] [⟨0, 5, 0, STONE⟩] []).2.2.1 (by decide)
      (by decide)⟩

/-! Physics steps: `GameServer.update` (packages/server) and the client's
`processInput` collision section (part_001).  Positions and velocities are
exact rationals; the world's solidity test (`world.isSolid` resp.
`checkCollision`) is an oracle parameter. -/

structure Vec3Q where
  x : Q
  y : Q
  z : Q
deriving DecidableEq, Repr

/-- Server candidate x (`newPos.x = position.x + velocity.x * dt`, dt = 1/20). -/
def serverXCand (p v : Vec3Q) : Q := Q.add p.x (Q.mul v.x ⟨1, 20⟩)

/-- Server y velocity after the gravity branch: unchanged on ground, otherwise
`v.y - GRAVITY*dt` clamped at `-TERMINAL_VELOCITY` (9.8, 50). -/
def serverVyG (solid : Q → Q → Q → Bool) (p v : Vec3Q) : Q :=
  if solid p.x (Q.sub p.y ⟨1, 10⟩) p.z then v.y
  else
    let vy1 := Q.sub v.y (Q.mul ⟨49, 5⟩ ⟨1, 20⟩)
    if Q.blt vy1 ⟨-50, 1⟩ then ⟨-50, 1⟩ else vy1

/-- Server candidate y, from the post-gravity velocity. -/
def serverYCand (solid : Q → Q → Q → Bool) (p v : Vec3Q) : Q :=
  Q.add p.y (Q.mul (serverVyG solid p v) ⟨1, 20⟩)

/-- Server candidate z. -/
def serverZCand (p v : Vec3Q) : Q := Q.add p.z (Q.mul v.z ⟨1, 20⟩)

/-- Server x after its collision check (`isSolid(newPos.x, position.y,
position.z)`); the x velocity is never touched here. -/
def serverPX (solid : Q → Q → Q → Bool) (p v : Vec3Q) : Q :=
  if solid (serverXCand p v) p.y p.z then p.x else serverXCand p v

/-- Server y after its collision check (at the already-updated x): position
kept on collision (no snap to the block boundary). -/
def serverPY (solid : Q → Q → Q → Bool) (p v : Vec3Q) : Q :=
  if solid (serverPX solid p v) (serverYCand solid p v) p.z then p.y
  else serverYCand solid p v

/-- Server y velocity after the collision check: zeroed only when colliding
while moving down. -/
def serverVY1 (solid : Q → Q → Q → Bool) (p v : Vec3Q) : Q :=
  if solid (serverPX solid p v) (serverYCand solid p v) p.z then
    (if Q.blt (serverVyG solid p v) ⟨0, 1⟩ then ⟨0, 1⟩ else serverVyG solid p v)
  else serverVyG solid p v

/-- Server z after its collision check (at the updated x and y). -/
def serverPZ (solid : Q → Q → Q → Bool) (p v : Vec3Q) : Q :=
  if solid (serverPX solid p v) (serverPY solid p v) (serverZCand p v) then p.z
  else serverZCand p v

/-- Embeds the physics portion of `GameServer.update` for one agent: gravity,
per-axis position updates x, y, z (each checked against the oracle), then
`velocity.x *= 0.8; velocity.z *= 0.8` — the horizontal velocities are
frictioned but never zeroed by a collision. -/
def serverStep (solid : Q → Q → Q → Bool) (p v : Vec3Q) : Vec3Q × Vec3Q :=
  ({ x := serverPX solid p v, y := serverPY solid p v, z := serverPZ solid p v },
   { x := Q.mul v.x ⟨4, 5⟩, y := serverVY1 solid p v, z := Q.mul v.z ⟨4, 5⟩ })

/-- Client x velocity after friction (0.8). -/
def clientVX0 (v : Vec3Q) : Q := Q.mul v.x ⟨4, 5⟩

/-- Client y velocity after gravity (-0.02). -/
def clientVY0 (v : Vec3Q) : Q := Q.add v.y ⟨-1, 50⟩

/-- Client z velocity after friction. -/
def clientVZ0 (v : Vec3Q) : Q := Q.mul v.z ⟨4, 5⟩

def clientXCand (p v : Vec3Q) : Q := Q.add p.x (clientVX0 v)

def clientYCand (p v : Vec3Q) : Q := Q.add p.y (clientVY0 v)

def clientZCand (p v : Vec3Q) : Q := Q.add p.z (clientVZ0 v)

/-- Client x after its collision check. -/
def clientPX1 (collide : Q → Q → Q → Bool) (p v : Vec3Q) : Q :=
  if collide (clientXCand p v) p.y p.z then p.x else clientXCand p v

def clientVX1 (collide : Q → Q → Q → Bool) (p v : Vec3Q) : Q :=
  if collide (clientXCand p v) p.y p.z then ⟨0, 1⟩ else clientVX0 v

/-- Client z after its collision check — run before the y axis, at the
original y. -/
def clientPZ1 (collide : Q → Q → Q → Bool) (p v : Vec3Q) : Q :=
  if collide (clientPX1 collide p v) p.y (clientZCand p v) then p.z
  else clientZCand p v

def clientVZ1 (collide : Q → Q → Q → Bool) (p v : Vec3Q) : Q :=
  if collide (clientPX1 collide p v) p.y (clientZCand p v) then ⟨0, 1⟩
  else clientVZ0 v

/-- Client y after its collision check (last axis): when falling into a
collision, snap to `Math.floor(y) + 0.001`. -/
def clientPY1 (collide : Q → Q → Q → Bool) (p v : Vec3Q) : Q :=
  if collide (clientPX1 collide p v) (clientYCand p v) (clientPZ1 collide p v) then
    (if Q.blt (clientVY0 v) ⟨0, 1⟩ then Q.add (Q.ofInt (Q.floor p.y)) ⟨1, 1000⟩
     else p.y)
  else clientYCand p v

def clientVY1 (collide : Q → Q → Q → Bool) (p v : Vec3Q) : Q :=
  if collide (clientPX1 collide p v) (clientYCand p v) (clientPZ1 collide p v) then
    ⟨0, 1⟩
  else clientVY0 v

/-- Embeds the collision section of the client's `processInput`: gravity and
friction, then per-axis integration in the order x, z, y, zeroing the
velocity of each colliding axis and snapping y down onto the block boundary
when a falling collision occurs. -/
def clientStep (collide : Q → Q → Q → Bool) (p v : Vec3Q) : Vec3Q × Vec3Q :=
  ({ x := clientPX1 collide p v, y := clientPY1 collide p v,
     z := clientPZ1 collide p v },
   { x := clientVX1 collide p v, y := clientVY1 collide p v,
     z := clientVZ1 collide p v })

/-- The spec's claimed integration order — x, then y, then z — with the same
gravity/friction prelude, per-axis zeroing and falling snap.  This definition
follows the specification's words (no source function has this order); it is
compared against `clientStep` and `serverStep`. -/
def clientStepSpecOrder (collide : Q → Q → Q → Bool) (p v : Vec3Q) :
    Vec3Q × Vec3Q :=
  let vx0 := Q.mul v.x ⟨4, 5⟩
  let vy0 := Q.add v.y ⟨-1, 50⟩
  let vz0 := Q.mul v.z ⟨4, 5⟩
  let cX := collide (Q.add p.x vx0) p.y p.z
  let px1 := if cX then p.x else Q.add p.x vx0
  let vx1 := if cX then ⟨0, 1⟩ else vx0
  let cY := collide px1 (Q.add p.y vy0) p.z
  let py1 := if cY then
      (if Q.blt vy0 ⟨0, 1⟩ then Q.add (Q.ofInt (Q.floor p.y)) ⟨1, 1000⟩ else p.y)
    else Q.add p.y vy0
  let vy1 := if cY then ⟨0, 1⟩ else vy0
  let cZ := collide px1 py1 (Q.add p.z vz0)
  let pz1 := if cZ then p.z else Q.add p.z vz0
  let vz1 := if cZ then ⟨0, 1⟩ else vz0
  ({ x := px1, y := py1, z := pz1 }, { x := vx1, y := vy1, z := vz1 })

/-- Collision oracle for the C7 order counterexample: solid exactly at the
original y-level and the z candidate. -/
def c7collide : Q → Q → Q → Bool :=
  fun _ y z => y == (⟨10, 1⟩ : Q) && z == (⟨20, 20⟩ : Q)

/-- C7 counterexample: with an everywhere-solid world, the server's colliding
x axis keeps a nonzero velocity (only friction is applied: 1 * 0.8), and a
falling y collision leaves the position at 10.5 — a sub-block overlap, no
snap.  And the client's real order is x, z, y: against `c7collide` it differs
from the spec's x, y, z order. -/
theorem c7_counterexample :
    (serverStep (fun _ _ _ => true) ⟨⟨0, 1⟩, ⟨21, 2⟩, ⟨0, 1⟩⟩
        ⟨⟨1, 1⟩, ⟨-1, 1⟩, ⟨0, 1⟩⟩).1.x = ⟨0, 1⟩ ∧
    (serverStep (fun _ _ _ => true) ⟨⟨0, 1⟩, ⟨21, 2⟩, ⟨0, 1⟩⟩
        ⟨⟨1, 1⟩, ⟨-1, 1⟩, ⟨0, 1⟩⟩).2.x.num ≠ 0 ∧
    (serverStep (fun _ _ _ => true) ⟨⟨0, 1⟩, ⟨21, 2⟩, ⟨0, 1⟩⟩
        ⟨⟨1, 1⟩, ⟨-1, 1⟩, ⟨0, 1⟩⟩).1.y = ⟨21, 2⟩ ∧
    (serverStep (fun _ _ _ => true) ⟨⟨0, 1⟩, ⟨21, 2⟩, ⟨0, 1⟩⟩
        ⟨⟨1, 1⟩, ⟨-1, 1⟩, ⟨0, 1⟩⟩).2.y = ⟨0, 1⟩ ∧
    clientStep c7collide ⟨⟨0, 1⟩, ⟨10, 1⟩, ⟨0, 1⟩⟩ ⟨⟨0, 1⟩, ⟨-49, 50⟩, ⟨5, 4⟩⟩ ≠
      clientStepSpecOrder c7collide ⟨⟨0, 1⟩, ⟨10, 1⟩, ⟨0, 1⟩⟩
        ⟨⟨0, 1⟩, ⟨-49, 50⟩, ⟨5, 4⟩⟩ := by
  decide

/-- C7 (amended): the server integrates x, y, z per axis but zeroes only a
downward-colliding y velocity — x and z velocities are frictioned (times 0.8)
and never zeroed, and a colliding y keeps its old position with no boundary
snap.  The client integrates x, then z, then y, zeroes the velocity of each
colliding axis, and on a falling y collision snaps to floor(y) + 0.001. -/
theorem c7_axis_integration (solid collide : Q → Q → Q → Bool) (p v : Vec3Q) :
    (serverStep solid p v).2.x = Q.mul v.x ⟨4, 5⟩ ∧
    (serverStep solid p v).2.z = Q.mul v.z ⟨4, 5⟩ ∧
    (solid (serverXCand p v) p.y p.z = true → (serverStep solid p v).1.x = p.x) ∧
    (solid (serverXCand p v) p.y p.z = false →
      (serverStep solid p v).1.x = serverXCand p v) ∧
    (solid (serverPX solid p v) (serverYCand solid p v) p.z = true →
      (serverStep solid p v).1.y = p.y ∧
      (Q.blt (serverVyG solid p v) ⟨0, 1⟩ = true →
        (serverStep solid p v).2.y = ⟨0, 1⟩)) ∧
    (solid (serverPX solid p v) (serverPY solid p v) (serverZCand p v) = false →
      (serverStep solid p v).1.z = serverZCand p v) ∧
    (collide (clientXCand p v) p.y p.z = true →
      (clientStep collide p v).1.x = p.x ∧ (clientStep collide p v).2.x = ⟨0, 1⟩) ∧
    (collide (clientPX1 collide p v) p.y (clientZCand p v) = true →
      (clientStep collide p v).1.z = p.z ∧ (clientStep collide p v).2.z = ⟨0, 1⟩) ∧
    (collide (clientPX1 collide p v) (clientYCand p v) (clientPZ1 collide p v) = true →
      Q.blt (clientVY0 v) ⟨0, 1⟩ = true →
      (clientStep collide p v).1.y = Q.add (Q.ofInt (Q.floor p.y)) ⟨1, 1000⟩ ∧
      (clientStep collide p v).2.y = ⟨0, 1⟩) := by
  refine ⟨rfl, rfl, ?_, ?_, ?_, ?_, ?_, ?_, ?_⟩
  · intro h
    simp [serverStep, serverPX, h]
  · intro h
    simp [serverStep, serverPX, h]
  · intro h
    refine ⟨by simp [serverStep, serverPY, h], ?_⟩
    intro hb
    simp [serverStep, serverVY1, h, hb]
  · intro h
    simp [serverStep, serverPZ, h]
  · intro h
    exact ⟨by simp [clientStep, clientPX1, h], by simp [clientStep, clientVX1, h]⟩
  · intro h
    exact ⟨by simp [clientStep, clientPZ1, h], by simp [clientStep, clientVZ1, h]⟩
  · intro h hb
    exact ⟨by simp [clientStep, clientPY1, h, hb], by simp [clientStep, clientVY1, h]⟩

/-- Witness for `c7_axis_integration`: a free axis advances on the server, and
a collision on the client's x axis zeroes its velocity. -/
theorem c7_axis_integration_witness :
    (serverStep (fun _ _ _ => false) ⟨⟨0, 1⟩, ⟨10, 1⟩, ⟨0, 1⟩⟩
        ⟨⟨1, 1⟩, ⟨0, 1⟩, ⟨1, 1⟩⟩).1.x =
      serverXCand ⟨⟨0, 1⟩, ⟨10, 1⟩, ⟨0, 1⟩⟩ ⟨⟨1, 1⟩, ⟨0, 1⟩, ⟨1, 1⟩⟩ ∧
    (clientStep (fun _ _ _ => true) ⟨⟨0, 1⟩, ⟨10, 1⟩, ⟨0, 1⟩⟩
        ⟨⟨1, 1⟩, ⟨0, 1⟩, ⟨1, 1⟩⟩).1.x = (⟨⟨0, 1⟩, ⟨10, 1⟩, ⟨0, 1⟩⟩ : Vec3Q).x ∧
    (clientStep (fun _ _ _ => true) ⟨⟨0, 1⟩, ⟨10, 1⟩, ⟨0, 1⟩⟩
        ⟨⟨1, 1⟩, ⟨0, 1⟩, ⟨1, 1⟩⟩).2.x = ⟨0, 1⟩ :=
  ⟨(c7_axis_integration (fun _ _ _ => false) (fun _ _ _ => false)
      ⟨⟨0, 1⟩, ⟨10, 1⟩, ⟨0, 1⟩⟩ ⟨⟨1, 1⟩, ⟨0, 1⟩, ⟨1, 1⟩⟩).2.2.2.1 rfl,
   (c7_axis_integration (fun _ _ _ => false) (fun _ _ _ => true)
      ⟨⟨0, 1⟩, ⟨10, 1⟩, ⟨0, 1⟩⟩ ⟨⟨1, 1⟩, ⟨0, 1⟩, ⟨1, 1⟩⟩).2.2.2.2.2.2.1 rfl⟩

/-! The `/agent/scan` endpoint of `convex/http.ts`. -/

/-- The chunk-loading stride `for (v = min; v <= max; v += CHUNK_SIZE)`. -/
def scanStrides (lo hi : Int) : List Int :=
  (List.range ((hi - lo).toNat / 16 + 1)).map (fun k => lo + 16 * (k : Int))

/-- The scan loop: every position of the normalized region in row-major
order; positions whose chunk was not loaded are silently skipped
(`if (!chunkBlocks) continue`), and non-air blocks are collected as
`(x, y, z, blockId)`. -/
def scanFound (gen : ChunkCoord → List Nat) (db2 : ChunkDB)
    (loaded : List ChunkCoord) (minX maxX minY maxY minZ maxZ : Int) :
    List (Int × Int × Int × Int) :=
  (rangeIncl minX maxX).foldl (fun acc x =>
    (rangeIncl minY maxY).foldl (fun acc y =>
      (rangeIncl minZ maxZ).foldl (fun acc z =>
        let cc := worldToChunk x y z
        if loaded.contains cc then
          let bid := httpGetBlockAt (dbChunkVal gen db2 cc) (worldToLocal x y z).x
            (worldToLocal x y z).y (worldToLocal x y z).z
          if bid ≠ ((AIR : Nat) : Int) then acc ++ [(x, y, z, bid)] else acc
        else acc) acc) acc) []

inductive ScanRes
  | tooLarge
  | ok (blocks : List (Int × Int × Int × Int))
deriving DecidableEq, Repr

/-- Embeds `/agent/scan`: normalize the bounds, reject when any axis
difference exceeds 32 (so spans of up to 33 blocks per axis are accepted),
collect chunk keys by a 16-stride walk plus the single max-corner chunk, load
them, and scan the region for non-air blocks. -/
def scanRegion (gen : ChunkCoord → List Nat) (db : ChunkDB)
    (x1 y1 z1 x2 y2 z2 : Int) : ScanRes × ChunkDB :=
  let minX := min x1 x2
  let maxX := max x1 x2
  let minY := min y1 y2
  let maxY := max y1 y2
  let minZ := min z1 z2
  let maxZ := max z1 z2
  if 32 < maxX - minX ∨ 32 < maxY - minY ∨ 32 < maxZ - minZ then (.tooLarge, db)
  else
    let keys0 := (scanStrides minX maxX).foldl (fun acc x =>
      (scanStrides minY maxY).foldl (fun acc y =>
        (scanStrides minZ maxZ).foldl (fun acc z =>
          let cc := worldToChunk x y z
          if acc.contains cc then acc else acc ++ [cc]) acc) acc) []
    let corner := worldToChunk maxX maxY maxZ
    let keys := if keys0.contains corner then keys0 else keys0 ++ [corner]
    let db2 := keys.foldl (fun d c => (dbGetOrGenerate gen d c).2) db
    (.ok (scanFound gen db2 keys minX maxX minY maxY minZ maxZ), db2)

lemma scanFound_sound (gen : ChunkCoord → List Nat) (db2 : ChunkDB)
    (loaded : List ChunkCoord) (minX maxX minY maxY minZ maxZ : Int) :
    ∀ b ∈ scanFound gen db2 loaded minX maxX minY maxY minZ maxZ,
      minX ≤ b.1 ∧ b.1 ≤ maxX ∧ minY ≤ b.2.1 ∧ b.2.1 ≤ maxY ∧
      minZ ≤ b.2.2.1 ∧ b.2.2.1 ≤ maxZ ∧ b.2.2.2 ≠ ((AIR : Nat) : Int) := by
  unfold scanFound
  refine foldl_pres_mem _ (fun (acc : List (Int × Int × Int × Int)) =>
    ∀ b ∈ acc, minX ≤ b.1 ∧ b.1 ≤ maxX ∧ minY ≤ b.2.1 ∧ b.2.1 ≤ maxY ∧
      minZ ≤ b.2.2.1 ∧ b.2.2.1 ≤ maxZ ∧ b.2.2.2 ≠ ((AIR : Nat) : Int))
    (rangeIncl minX maxX) ?_ _ (fun t ht => ht) _ (fun b hb => absurd hb (List.not_mem_nil b))
  intro acc x hx hacc
  refine foldl_pres_mem _ (fun (acc : List (Int × Int × Int × Int)) =>
    ∀ b ∈ acc, minX ≤ b.1 ∧ b.1 ≤ maxX ∧ minY ≤ b.2.1 ∧ b.2.1 ≤ maxY ∧
      minZ ≤ b.2.2.1 ∧ b.2.2.1 ≤ maxZ ∧ b.2.2.2 ≠ ((AIR : Nat) : Int))
    (rangeIncl minY maxY) ?_ _ (fun t ht => ht) _ hacc
  intro acc2 y hy hacc2
  refine foldl_pres_mem _ (fun (acc : List (Int × Int × Int × Int)) =>
    ∀ b ∈ acc, minX ≤ b.1 ∧ b.1 ≤ maxX ∧ minY ≤ b.2.1 ∧ b.2.1 ≤ maxY ∧
      minZ ≤ b.2.2.1 ∧ b.2.2.1 ≤ maxZ ∧ b.2.2.2 ≠ ((AIR : Nat) : Int))
    (rangeIncl minZ maxZ) ?_ _ (fun t ht => ht) _ hacc2
  intro acc3 z hz hacc3
  dsimp only
  split
  · split
    · rename_i hcc hbid
      intro b hb
      rcases List.mem_append.1 hb with hb | hb
      · exact hacc3 b hb
      · rcases List.mem_singleton.1 hb with rfl
        have hxb := mem_rangeIncl hx
        have hyb := mem_rangeIncl hy
        have hzb := mem_rangeIncl hz
        exact ⟨hxb.1, hxb.2, hyb.1, hyb.2, hzb.1, hzb.2, hbid⟩
    · exact hacc3
  · exact hacc3

/-- C9 counterexample: the size check is `max - min > 32` on the coordinate
difference, so the normalized region 0..32 — 33 blocks along each axis,
35937 in all — is accepted, not rejected: scan regions are bounded by
33×33×33, not 32×32×32. -/
theorem c9_counterexample :
    max (0 : Int) 32 - min (0 : Int) 32 = 32 ∧
    (rangeIncl (min (0 : Int) 32) (max (0 : Int) 32)).length = 33 ∧
    (scanRegion airBufGen [] 0 0 0 32 32 32).1 ≠ .tooLarge := by
  refine ⟨by decide, by decide, ?_⟩
  unfold scanRegion
  dsimp only
  rw [if_neg (by decide)]
  intro h
  exact ScanRes.noConfusion h

/-- C9 (amended): scan rejects exactly when a normalized axis difference
exceeds 32 — accepted regions span up to 33 blocks per axis — and an accepted
request's result is sound only: every reported block lies inside the
normalized region and is non-air (positions whose chunk the stride-plus-corner
loading step missed are silently skipped, so interior non-air blocks can be
omitted). -/
theorem c9_scan_bounds (gen : ChunkCoord → List Nat) (db : ChunkDB)
    (x1 y1 z1 x2 y2 z2 : Int) :
    ((32 < max x1 x2 - min x1 x2 ∨ 32 < max y1 y2 - min y1 y2 ∨
        32 < max z1 z2 - min z1 z2) →
      scanRegion gen db x1 y1 z1 x2 y2 z2 = (.tooLarge, db)) ∧
    (¬(32 < max x1 x2 - min x1 x2 ∨ 32 < max y1 y2 - min y1 y2 ∨
        32 < max z1 z2 - min z1 z2) →
      ∃ bl, (scanRegion gen db x1 y1 z1 x2 y2 z2).1 = .ok bl ∧
        ∀ b ∈ bl, min x1 x2 ≤ b.1 ∧ b.1 ≤ max x1 x2 ∧
          min y1 y2 ≤ b.2.1 ∧ b.2.1 ≤ max y1 y2 ∧
          min z1 z2 ≤ b.2.2.1 ∧ b.2.2.1 ≤ max z1 z2 ∧
          b.2.2.2 ≠ ((AIR : Nat) : Int)) := by
  constructor
  · intro h
    unfold scanRegion
    dsimp only
    rw [if_pos h]
  · intro h
    unfold scanRegion
    dsimp only
    rw [if_neg h]
    exact ⟨_, rfl, scanFound_sound gen _ _ _ _ _ _ _ _⟩

/-- Witness for `c9_scan_bounds`: a 34-block x span is rejected; the 33-block
0..32 cube is accepted with a sound result list. -/
theorem c9_scan_bounds_witness :
    scanRegion airBufGen [] 0 0 0 33 0 0 = (.tooLarge, []) ∧
    (∃ bl, (scanRegion airBufGen [] 0 0 0 32 32 32).1 = .ok bl ∧
      ∀ b ∈ bl, min (0 : Int) 32 ≤ b.1 ∧ b.1 ≤ max (0 : Int) 32 ∧
        min (0 : Int) 32 ≤ b.2.1 ∧ b.2.1 ≤ max (0 : Int) 32 ∧
        min (0 : Int) 32 ≤ b.2.2.1 ∧ b.2.2.1 ≤ max (0 : Int) 32 ∧
        b.2.2.2 ≠ ((AIR : Nat) : Int)) :=
  ⟨(c9_scan_bounds airBufGen [] 0 0 0 33 0 0).1 (by decide),
   (c9_scan_bounds airBufGen [] 0 0 0 32 32 32).2 (by decide)⟩
